import Mathlib

/-!
Verification of the chapter-generation pipeline of the story-maker
application: the response parser (`PromptBuilder.parse_response` and
`PromptBuilder._extract_choices_fallback`), the prompt builder
(`PromptBuilder.build_chapter_prompt`), the Ollama client retry wrapper
(`OllamaClient.generate_sync`), and the orchestrating Celery task
(`generate_chapter`) together with the story/task state machine.

Strings are modelled as `List Char`; the Python string primitives the
source uses (`find`, slicing, `strip`, `lstrip`, `replace`,
`split("\n")`, `in`) are given executable models below.  Whitespace is
the ASCII whitespace class (all inputs considered are ASCII/Cyrillic
text without exotic Unicode spaces).
-/

/-- Python `str.isspace` on the ASCII whitespace characters. -/
def isPySpace (c : Char) : Bool :=
  c == ' ' || c == '\t' || c == '\n' || c == '\r' || c == '\x0b' || c == '\x0c'

/-- Model: `startsWith hay needle`: `hay` begins with `needle`. -/
def startsWith : List Char → List Char → Bool
  | _, [] => true
  | [], _ :: _ => false
  | c :: t, n :: ns => c == n && startsWith t ns

/-- Python `hay.find(needle)` (first index), `none` when absent. -/
def pyFind : List Char → List Char → Option Nat
  | [], nd => if startsWith [] nd then some 0 else none
  | c :: t, nd =>
    if startsWith (c :: t) nd then some 0 else (pyFind t nd).map (· + 1)

/-- Python `needle in hay`. -/
def pyContains (hay nd : List Char) : Bool := (pyFind hay nd).isSome

/-- Leading-whitespace strip (Python `lstrip()`). -/
def dropLead (l : List Char) : List Char := l.dropWhile isPySpace

/-- Trailing-whitespace strip (Python `rstrip()`). -/
def dropTrail : List Char → List Char
  | [] => []
  | c :: t =>
    match dropTrail t with
    | [] => if isPySpace c then [] else [c]
    | r => c :: r

/-- Python `s.strip()`. -/
def pyStrip (l : List Char) : List Char := dropLead (dropTrail l)

/-- Python `s[a:b]`. -/
def pySlice (l : List Char) (a b : Nat) : List Char := (l.take b).drop a

/-- Fuel-based worker for `pyReplace`; the fuel bounds the number of
characters consumed, so `l.length` fuel is always enough (each step
consumes at least one character of a nonempty needle match or one
unmatched character). -/
def pyReplaceF (nd rep : List Char) : Nat → List Char → List Char
  | 0, l => l
  | f + 1, l =>
    match l with
    | [] => []
    | c :: t =>
      if startsWith (c :: t) nd then rep ++ pyReplaceF nd rep f ((c :: t).drop nd.length)
      else c :: pyReplaceF nd rep f t

/-- Python `s.replace(nd, rep)` (all occurrences, left to right,
non-overlapping); for the empty needle we return `l` (never used on an
empty needle in the source). -/
def pyReplace (l nd rep : List Char) : List Char :=
  if nd.isEmpty then l else pyReplaceF nd rep l.length l

/-- Python `s.split("\n")`. -/
def pySplitNl : List Char → List (List Char)
  | [] => [[]]
  | c :: t =>
    if c == '\n' then [] :: pySplitNl t
    else
      match pySplitNl t with
      | h :: r => (c :: h) :: r
      | [] => [[c]]

/-- The character set of the source's `lstrip("0123456789.")`. -/
def numDotChars : List Char := "0123456789.".data

/-- Model: `"0123456789"` as characters. -/
def digitChars : List Char := "0123456789".data

/-- Delimiter tokens of the response format. -/
def chapTag : List Char := "[CHAPTER]".data
/-- Closing chapter delimiter. -/
def chapEnd : List Char := "[/CHAPTER]".data
/-- Opening choices delimiter. -/
def choTag : List Char := "[CHOICES]".data
/-- Closing choices delimiter. -/
def choEnd : List Char := "[/CHOICES]".data

/-- The filler phrases `parse_response` strips from content. -/
def fillerPhrases : List (List Char) :=
  [ "Как вы хотели бы продолжить историю?".data
  , "How would you like to continue the story?".data
  , "What happens next?".data
  , "Что будет дальше?".data ]

/-- The per-line loop of the `[CHOICES]` section of
`PromptBuilder.parse_response`: for each line, strip it, keep it when it
is nonempty and starts with a digit, remove the leading
`lstrip("0123456789.")` characters, strip, and keep the result when
nonempty. -/
def parseChoiceLines : List (List Char) → List (List Char)
  | [] => []
  | line :: rest =>
    match pyStrip line with
    | [] => parseChoiceLines rest
    | c :: l =>
      if c.isDigit then
        match pyStrip ((c :: l).dropWhile (fun x => numDotChars.contains x)) with
        | [] => parseChoiceLines rest
        | choice => choice :: parseChoiceLines rest
      else parseChoiceLines rest

/-! ### A small backtracking regex engine

`_extract_choices_fallback` uses `re.search` with two patterns.  The
engine below models CPython's backtracking semantics for the features
those patterns use: character classes, literals (case-insensitive under
`re.IGNORECASE`), concatenation, ordered alternation, greedy and lazy
repetition, capturing groups, and the `$` anchor with and without
`re.MULTILINE`.  `reSearch` scans candidate start positions left to
right, like `re.search`. -/

/-- Lower-casing for `re.IGNORECASE`, covering ASCII and the Cyrillic
letters appearing in the source's marker patterns. -/
def lowerChar (c : Char) : Char :=
  if 'A' ≤ c ∧ c ≤ 'Z' then Char.ofNat (c.toNat + 32)
  else if 'А' ≤ c ∧ c ≤ 'Я' then Char.ofNat (c.toNat + 32)
  else if c = 'Ё' then 'ё' else c

/-- Regular-expression abstract syntax. -/
inductive RE where
  | eps
  | cls (p : Char → Bool)
  | seq (a b : RE)
  | alt (a b : RE)
  | star (r : RE) (lazy : Bool)
  | group (n : Nat) (r : RE)
  | eol (multiline : Bool)

/-- A single literal character, case-insensitive when `ci` is true. -/
def chrRE (ci : Bool) (c : Char) : RE :=
  .cls (fun x => if ci then lowerChar x == lowerChar c else x == c)

/-- A literal word. -/
def litRE (ci : Bool) (s : String) : RE :=
  s.data.foldr (fun c acc => .seq (chrRE ci c) acc) .eps

/-- Model: `r+` (greedy or lazy). -/
def plusRE (r : RE) (lazy : Bool) : RE := .seq r (.star r lazy)

/-- Model: `r?` (greedy). -/
def optRE (r : RE) : RE := .alt r .eps

/-- Model: `r??` (lazy optional, prefers the empty match). -/
def optLazyRE (r : RE) : RE := .alt .eps r

/-- Character of `hay` at index `i`. -/
def charAt : List Char → Nat → Option Char
  | [], _ => none
  | c :: _, 0 => some c
  | _ :: t, n + 1 => charAt t n

/-- Does `$` match at position `i`?  With `re.MULTILINE`, at the end of
the string and before every newline; without it, at the end of the
string and before a trailing final newline. -/
def eolAt (ml : Bool) (s : List Char) (i : Nat) : Bool :=
  match charAt s i with
  | none => true
  | some c => if ml then c == '\n' else c == '\n' && i + 1 == s.length

/-- Captured group spans, most recent first. -/
def Caps := List (Nat × Nat × Nat)

/-- Span of group `n`. -/
def capLookup (caps : Caps) (n : Nat) : Option (Nat × Nat) :=
  match caps with
  | [] => none
  | (m, a, b) :: rest => if m = n then some (a, b) else capLookup rest n

/-- Backtracking matcher in continuation-passing style; `fuel` bounds
recursion depth.  The continuation receives the position after the
sub-match and the captures collected so far; alternatives are tried in
CPython's order (left alternative first; greedy star tries the longer
match first, lazy star the shorter). -/
def reM (fuel : Nat) (r : RE) (s : List Char) (i : Nat) (caps : Caps)
    (k : Nat → Caps → Option (Nat × Caps)) : Option (Nat × Caps) :=
  match fuel with
  | 0 => none
  | fuel + 1 =>
    match r with
    | .eps => k i caps
    | .cls p =>
      match charAt s i with
      | some c => if p c then k (i + 1) caps else none
      | none => none
    | .seq a b => reM fuel a s i caps (fun j cs => reM fuel b s j cs k)
    | .alt a b =>
      match reM fuel a s i caps k with
      | some res => some res
      | none => reM fuel b s i caps k
    | .star r lazy =>
      if lazy then
        match k i caps with
        | some res => some res
        | none => reM fuel r s i caps (fun j cs => reM fuel (.star r true) s j cs k)
      else
        match reM fuel r s i caps (fun j cs => reM fuel (.star r false) s j cs k) with
        | some res => some res
        | none => k i caps
    | .group n r => reM fuel r s i caps (fun j cs => k j ((n, i, j) :: cs))
    | .eol ml => if eolAt ml s i then k i caps else none

/-- Model: `re.search`: the leftmost position where the pattern matches;
returns (start, end, captures). -/
def reSearch (fuel : Nat) (r : RE) (s : List Char) : Option (Nat × Nat × Caps) :=
  (List.range (s.length + 1)).findSome? (fun i =>
    (reM fuel r s i [] (fun j cs => some (j, cs))).map (fun p => (i, p.1, p.2)))

/-- Model: `\s` of the source patterns. -/
def wsRE : RE := .cls isPySpace

/-- Model: `\d`. -/
def digitRE : RE := .cls Char.isDigit

/-- Model: `.` (no DOTALL: anything but a newline). -/
def dotRE : RE := .cls (fun c => !(c == '\n'))

/-- Chains a list of regexes in sequence. -/
def seqs (rs : List RE) : RE := rs.foldr .seq .eps

/-- Marker pattern 1: `(?:Варианты|Выберите|Выбор|Options|Choose|Choices)[\s:]*`. -/
def markerRE1 : RE :=
  .seq
    (.alt (litRE true "Варианты")
      (.alt (litRE true "Выберите")
        (.alt (litRE true "Выбор")
          (.alt (litRE true "Options")
            (.alt (litRE true "Choose") (litRE true "Choices"))))))
    (.star (.cls (fun c => isPySpace c || c == ':')) false)

/-- Marker pattern 2:
`(?:Что (?:вы )?(?:будете|хотите) делать|What (?:will you|do you want to) do)\??\s*`. -/
def markerRE2 : RE :=
  seqs
    [ .alt
        (seqs [litRE true "Что ", optRE (litRE true "вы "),
               .alt (litRE true "будете") (litRE true "хотите"), litRE true " делать"])
        (seqs [litRE true "What ",
               .alt (litRE true "will you") (litRE true "do you want to"),
               litRE true " do"])
    , optLazyRE (chrRE true '?')
    , .star wsRE false ]

/-- Marker pattern 3:
`(?:Как (?:вы )?(?:хотите |желаете )?продолжить|How (?:would you like to |do you want to )?continue)\??\s*`. -/
def markerRE3 : RE :=
  seqs
    [ .alt
        (seqs [litRE true "Как ", optRE (litRE true "вы "),
               optRE (.alt (litRE true "хотите ") (litRE true "желаете ")),
               litRE true "продолжить"])
        (seqs [litRE true "How ",
               optRE (.alt (litRE true "would you like to ") (litRE true "do you want to ")),
               litRE true "continue"])
    , optLazyRE (chrRE true '?')
    , .star wsRE false ]

/-- The full pattern built around a marker in
`_extract_choices_fallback`:
`(marker)(?:\n|\s)*((?:\d[.)]\s*.+?(?:\n|$))+)\s*$`,
compiled with `re.IGNORECASE | re.MULTILINE` (so `$` also matches
before any newline). -/
def fullMarkerRE (marker : RE) : RE :=
  seqs
    [ .group 1 marker
    , .star (.alt (chrRE false '\n') wsRE) false
    , .group 2 (plusRE
        (seqs [digitRE, .cls (fun c => c == '.' || c == ')'),
               .star wsRE false, plusRE dotRE true,
               .alt (chrRE false '\n') (.eol true)]) false)
    , .star wsRE false
    , .eol true ]

/-- The bare trailing-list pattern of `_extract_choices_fallback`:
`((?:\n\s*\d[.)]\s*.+)+)\s*$`, compiled with no flags (so `$` matches
only at the end, or before a trailing final newline). -/
def numberedRE : RE :=
  seqs
    [ .group 1 (plusRE
        (seqs [chrRE false '\n', .star wsRE false, digitRE,
               .cls (fun c => c == '.' || c == ')'),
               .star wsRE false, plusRE dotRE false]) false)
    , .star wsRE false
    , .eol false ]

/-- Engine fuel used for the concrete searches in this development;
ample for the inputs considered. -/
def reFuel : Nat := 100000

/-! ### `PromptBuilder._parse_numbered_list` and `_extract_choices_fallback` -/

/-- Model: `re.sub(r"^\d+[.)]\s*", "", line)`: remove a leading run of digits
followed by `.` or `)` and any whitespace.  (Backtracking on `\d+`
cannot help: a shorter digit run leaves a digit where `[.)]` must
match, so the greedy take-all-digits behaviour is exact.) -/
def stripNumbering (l : List Char) : List Char :=
  match l.span Char.isDigit with
  | ([], _) => l
  | (_ :: _, rest) =>
    match rest with
    | c :: r => if c == '.' || c == ')' then r.dropWhile isPySpace else l
    | [] => l

/-- Model: `PromptBuilder._parse_numbered_list`: split on newlines, strip each
line, keep lines starting with a digit, de-numbered via `stripNumbering`
and kept when nonempty. -/
def parseNumberedList (text : List Char) : List (List Char) :=
  go (pySplitNl (pyStrip text))
where
  go : List (List Char) → List (List Char)
    | [] => []
    | line :: rest =>
      match pyStrip line with
      | [] => go rest
      | c :: l =>
        if c.isDigit then
          match pyStrip (stripNumbering (c :: l)) with
          | [] => go rest
          | choice => choice :: go rest
        else go rest

/-- The marker-led patterns tried, in order, by
`_extract_choices_fallback`. -/
def markerFullREs : List RE :=
  [fullMarkerRE markerRE1, fullMarkerRE markerRE2, fullMarkerRE markerRE3]

/-- Model: `PromptBuilder._extract_choices_fallback`: look for a marker-led
numbered block (three patterns, first match with a nonempty parse
wins), else a bare numbered block matched by `numberedRE` accepted only
with at least two items; on success the block is cut from the content
(`content[:match.start()].strip()`). -/
def extract_choices_fallback (content : List Char) : List (List Char) × List Char :=
  match markerFullREs.findSome? (fun pat =>
      match reSearch reFuel pat content with
      | some (st, _, caps) =>
        match capLookup caps 2 with
        | some (a, b) =>
          match parseNumberedList (pySlice content a b) with
          | [] => none
          | choices => some (choices, pyStrip (content.take st))
        | none => none
      | none => none) with
  | some res => res
  | none =>
    match reSearch reFuel numberedRE content with
    | some (st, _, caps) =>
      match capLookup caps 1 with
      | some (a, b) =>
        let potential := parseNumberedList (pySlice content a b)
        if 2 ≤ potential.length then (potential, pyStrip (content.take st))
        else ([], content)
      | none => ([], content)
    | none => ([], content)

/-! ### `PromptBuilder.parse_response` -/

/-- The result of `parse_response`. -/
structure ParsedResponse where
  content : List Char
  choices : List (List Char)
deriving DecidableEq, Repr

/-- Model: `PromptBuilder.parse_response`, translated clause by clause from the
source: extract content between `[CHAPTER]`/`[/CHAPTER]`; extract
numbered lines of the `[CHOICES]` section (closing tag optional); if no
content was delimited, use the whole (stripped) response with any
`[CHOICES]` section excised; scrub leftover delimiter tokens and filler
phrases; if no choices were found and content is nonempty, run the
fallback extractor; cap choices at 3. -/
def parse_response (response : List Char) : ParsedResponse :=
  let content1 : List Char :=
    if (pyContains response chapTag && pyContains response chapEnd) then
      let s := ((pyFind response chapTag).getD 0) + chapTag.length
      let e := (pyFind response chapEnd).getD 0
      pyStrip (pySlice response s e)
    else []
  let choices1 : List (List Char) :=
    if pyContains response choTag then
      let s := ((pyFind response choTag).getD 0) + choTag.length
      let e := if pyContains response choEnd then (pyFind response choEnd).getD 0
               else response.length
      parseChoiceLines (pySplitNl (pyStrip (pySlice response s e)))
    else []
  let content2 : List Char :=
    if content1.isEmpty then
      let c := pyStrip response
      if pyContains c choTag then
        let cs := (pyFind c choTag).getD 0
        if pyContains c choEnd then
          let ce := ((pyFind c choEnd).getD 0) + choEnd.length
          pyStrip (c.take cs) ++ pyStrip (c.drop ce)
        else pyStrip (c.take cs)
      else c
    else content1
  let content3 :=
    pyStrip (pyReplace (pyReplace (pyReplace (pyReplace content2
      chapTag []) chapEnd []) choTag []) choEnd [])
  let content4 := fillerPhrases.foldl (fun c ph => pyStrip (pyReplace c ph [])) content3
  let pr :=
    if choices1.isEmpty && !content4.isEmpty then extract_choices_fallback content4
    else (choices1, content4)
  { content := pr.2, choices := pr.1.take 3 }

/-! ### Data model

`Story`, `Chapter` and `TaskStatus` rows (`apps/stories/models.py`) and
an explicit database state.  UUIDs become `Nat` identifiers; timestamps
are irrelevant to the claims and omitted. -/

/-- Model: `StoryStatus` choices. -/
inductive StoryStatus where
  | inProgress
  | completed
  | cancelled
deriving DecidableEq, Repr

/-- Model: `TaskStatusChoice` choices. -/
inductive TaskStatusChoice where
  | pending
  | processing
  | completed
  | failed
deriving DecidableEq, Repr

/-- A `Story` row. -/
structure StoryRow where
  id : Nat
  premise : List Char
  language : List Char
  maxChapters : Nat
  status : StoryStatus
deriving DecidableEq, Repr

/-- A `Chapter` row.  `unique_together = ["story", "chapter_number"]`
is the invariant that at most one row exists per
`(storyId, chapterNumber)` pair. -/
structure ChapterRow where
  id : Nat
  storyId : Nat
  chapterNumber : Nat
  content : List Char
  choices : List (List Char)
  selectedChoice : Option (List Char)
  isGenerated : Bool
deriving DecidableEq, Repr

/-- A `TaskStatus` row; `id` is the Celery task id. -/
structure TaskRow where
  id : Nat
  storyId : Nat
  chapterNumber : Nat
  status : TaskStatusChoice
  errorMessage : List Char
deriving DecidableEq, Repr

/-- Database state; `nextId` feeds fresh `Chapter` primary keys. -/
structure DB where
  stories : List StoryRow
  chapters : List ChapterRow
  tasks : List TaskRow
  nextId : Nat
deriving DecidableEq, Repr

/-- Model: `Story.objects.get(id=...)` (as an `Option`). -/
def findStory (db : DB) (sid : Nat) : Option StoryRow :=
  db.stories.find? (fun s => s.id == sid)

/-- Lookup of a `TaskStatus` row by task id. -/
def findTask (db : DB) (tid : Nat) : Option TaskRow :=
  db.tasks.find? (fun t => t.id == tid)

/-- Lookup of the `Chapter` row for `(storyId, chapterNumber)`. -/
def findChapter (db : DB) (sid n : Nat) : Option ChapterRow :=
  db.chapters.find? (fun c => c.storyId == sid && c.chapterNumber == n)

/-- Model: `TaskStatus.objects.get_or_create(id=task_id, defaults={...})`. -/
def taskGetOrCreate (db : DB) (tid sid n : Nat) : TaskRow × DB :=
  match findTask db tid with
  | some t => (t, db)
  | none =>
    let t : TaskRow := ⟨tid, sid, n, .pending, []⟩
    (t, { db with tasks := db.tasks ++ [t] })

/-- Field-scoped save of a `TaskStatus` row (by primary key). -/
def taskMap (db : DB) (tid : Nat) (f : TaskRow → TaskRow) : DB :=
  { db with tasks := db.tasks.map (fun t => if t.id == tid then f t else t) }

/-- Model: `TaskStatus.mark_processing`. -/
def taskMarkProcessing (db : DB) (tid : Nat) : DB :=
  taskMap db tid (fun t => { t with status := .processing })

/-- Model: `TaskStatus.mark_completed`. -/
def taskMarkCompleted (db : DB) (tid : Nat) : DB :=
  taskMap db tid (fun t => { t with status := .completed })

/-- Model: `TaskStatus.mark_failed(error)`. -/
def taskMarkFailed (db : DB) (tid : Nat) (msg : List Char) : DB :=
  taskMap db tid (fun t => { t with status := .failed, errorMessage := msg })

/-- Model: `Chapter.objects.get_or_create(story=..., chapter_number=...,
defaults={"content": "", "choices": [], "is_generated": False})`. -/
def chapterGetOrCreate (db : DB) (sid n : Nat) : ChapterRow × DB :=
  match findChapter db sid n with
  | some c => (c, db)
  | none =>
    let c : ChapterRow := ⟨db.nextId, sid, n, [], [], none, false⟩
    (c, { db with chapters := db.chapters ++ [c], nextId := db.nextId + 1 })

/-- Model: `chapter.save(update_fields=["content", "choices", "is_generated"])`
after assigning the parsed results. -/
def chapterUpdate (db : DB) (cid : Nat) (content : List Char)
    (choices : List (List Char)) : DB :=
  { db with
    chapters := db.chapters.map (fun c =>
      if c.id == cid then
        { c with content := content, choices := choices, isGenerated := true }
      else c) }

/-- Model: `story_service.story_complete`: sets the status to `completed`
unconditionally. -/
def story_complete (db : DB) (sid : Nat) : DB :=
  { db with stories := db.stories.map (fun s =>
      if s.id == sid then { s with status := .completed } else s) }

/-- Model: `story_service.story_cancel`: sets the status to `cancelled`
unconditionally. -/
def story_cancel (db : DB) (sid : Nat) : DB :=
  { db with stories := db.stories.map (fun s =>
      if s.id == sid then { s with status := .cancelled } else s) }

/-- Insertion into a list sorted by `chapterNumber`. -/
def insertByNumber (c : ChapterRow) : List ChapterRow → List ChapterRow
  | [] => [c]
  | d :: t =>
    if c.chapterNumber < d.chapterNumber then c :: d :: t else d :: insertByNumber c t

/-- Model: `order_by("chapter_number")` of `selectors.chapter_list`. -/
def sortByNumber : List ChapterRow → List ChapterRow
  | [] => []
  | c :: t => insertByNumber c (sortByNumber t)

/-! ### `PromptBuilder.build_chapter_prompt` -/

/-- The `"ru"` entry of `PromptBuilder.SYSTEM_PROMPTS`. -/
def systemPromptRu : List Char :=
  ("Ты - талантливый писатель интерактивных историй. Твоя задача - создавать увлекательные главы истории на русском языке.\n\nПравила:\n1. Пиши живо и увлекательно, используя богатый язык\n2. Каждая глава должна быть 300-500 слов\n3. Заканчивай главу интригующим моментом\n4. ОБЯЗАТЕЛЬНО предлагай ровно 3 варианта продолжения в конце\n5. Не используй ненормативную лексику и откровенный контент\n\nВАЖНО: Варианты продолжения ОБЯЗАТЕЛЬНЫ. Без них ответ неполный.\n\nФормат ответа (СТРОГО соблюдай):\n[CHAPTER]\nТекст главы здесь...\n[/CHAPTER]\n\n[CHOICES]\n1. Первый вариант продолжения\n2. Второй вариант продолжения\n3. Третий вариант продолжения\n[/CHOICES]").data

/-- The `"en"` entry of `PromptBuilder.SYSTEM_PROMPTS`. -/
def systemPromptEn : List Char :=
  ("You are a talented interactive story writer. Your task is to create engaging story chapters in English.\n\nRules:\n1. Write vividly and engagingly, using rich language\n2. Each chapter should be 300-500 words\n3. End the chapter with an intriguing moment\n4. ALWAYS provide exactly 3 continuation options at the end\n5. No profanity or explicit content\n\nIMPORTANT: Continuation options are MANDATORY. Without them the response is incomplete.\n\nResponse format (STRICTLY follow):\n[CHAPTER]\nChapter text here...\n[/CHAPTER]\n\n[CHOICES]\n1. First continuation option\n2. Second continuation option\n3. Third continuation option\n[/CHOICES]").data

/-- The `"ru"` entry of `PromptBuilder.FINAL_CHAPTER_PROMPTS`. -/
def finalPromptRu : List Char :=
  ("Это ФИНАЛЬНАЯ глава истории. Заверши историю красивым и удовлетворительным финалом.\nНЕ предлагай варианты продолжения - история должна закончиться.\n\nФормат ответа:\n[CHAPTER]\nФинальный текст истории здесь...\n[/CHAPTER]").data

/-- The `"en"` entry of `PromptBuilder.FINAL_CHAPTER_PROMPTS`. -/
def finalPromptEn : List Char :=
  ("This is the FINAL chapter of the story. Conclude the story with a beautiful and satisfying ending.\nDO NOT provide continuation options - the story must end.\n\nResponse format:\n[CHAPTER]\nFinal story text here...\n[/CHAPTER]").data

/-- Model: `SYSTEM_PROMPTS.get(language, SYSTEM_PROMPTS["en"])`. -/
def systemPromptFor (language : List Char) : List Char :=
  if language == "ru".data then systemPromptRu
  else if language == "en".data then systemPromptEn
  else systemPromptEn

/-- Model: `FINAL_CHAPTER_PROMPTS.get(language, FINAL_CHAPTER_PROMPTS["en"])`. -/
def finalPromptFor (language : List Char) : List Char :=
  if language == "ru".data then finalPromptRu
  else if language == "en".data then finalPromptEn
  else finalPromptEn

/-- Python `"a b c".rsplit(" ", 1)[0]`: everything before the last
space, or the whole string when it has no space. -/
def rsplitFirst (l : List Char) : List Char :=
  match l.reverse.span (fun c => !(c == ' ')) with
  | (_, []) => l
  | (_, _ :: pre) => pre.reverse

/-- Model: `PromptBuilder._summarize_chapter` (with its `max_length`
argument): strip the content, return it if within the budget, else cut
at the budget, back to the last word boundary, and add an ellipsis. -/
def summarize_chapter (content : List Char) (maxLength : Nat) : List Char :=
  let c := pyStrip content
  if c.length ≤ maxLength then c
  else rsplitFirst (c.take maxLength) ++ "...".data

/-- Model: `"\n".join(parts)`. -/
def joinNl : List (List Char) → List Char
  | [] => []
  | [p] => p
  | p :: rest => p ++ '\n' :: joinNl rest

/-- Python `previous_chapters[-3:]`. -/
def lastThree (l : List ChapterRow) : List ChapterRow := l.drop (l.length - 3)

/-- Model: `PromptBuilder.build_chapter_prompt`, translated line by line:
pick the `(language, is_final)` system template (English fallback),
then append premise, a summary of at most the last three chapters
(note the per-chapter line is the literal `"- Глава ..."` in both
languages), the selected choice when truthy, and the final
instruction. -/
def build_chapter_prompt (story : StoryRow) (previous : List ChapterRow)
    (selectedChoice : Option (List Char)) (chapterNumber : Nat) : List Char :=
  let language := story.language
  let isFinal := story.maxChapters ≤ chapterNumber
  let systemPrompt := if isFinal then finalPromptFor language else systemPromptFor language
  let parts : List (List Char) := [systemPrompt, [], "---".data, []]
  let parts := parts ++
    [if language == "ru".data then "Замысел истории: ".data ++ story.premise
     else "Story premise: ".data ++ story.premise, []]
  let parts :=
    if previous.isEmpty then parts
    else
      (parts ++
        [if language == "ru".data then "Краткое содержание предыдущих глав:".data
         else "Summary of previous chapters:".data]) ++
      (lastThree previous).map (fun ch =>
        "- Глава ".data ++ (toString ch.chapterNumber).data ++ ": ".data ++
          summarize_chapter ch.content 200) ++ [[]]
  let parts :=
    match selectedChoice with
    | some (c :: cs) =>
      parts ++
        [if language == "ru".data then "Выбранное продолжение: ".data ++ (c :: cs)
         else "Chosen continuation: ".data ++ (c :: cs), []]
    | _ => parts
  let parts := parts ++
    [if language == "ru".data then "Напиши главу ".data ++ (toString chapterNumber).data ++ ".".data
     else "Write chapter ".data ++ (toString chapterNumber).data ++ ".".data]
  joinNl parts

/-! ### The `generate_chapter` Celery task (`apps/stories/tasks.py`)

The only effectful external call inside the task body is
`ollama_client.generate_sync(prompt)`; its result (or the exception it
raises, including a soft time limit firing during the call) is passed
in as `clientResult`.  `retries` is `self.request.retries` and
`maxRetries` is `self.max_retries` (3 in the source). -/

deriving instance DecidableEq for Except

/-- Exceptions that can escape the client call within the task body:
`StoryGenerationError` (carrying `str(e)`) or Celery's
`SoftTimeLimitExceeded`. -/
inductive GenError where
  | storyGenerationError (msg : List Char)
  | softTimeLimitExceeded
deriving DecidableEq, Repr

/-- Observable outcome of one task invocation: the success dict, the
story-not-found error dict, or a re-raised exception. -/
inductive TaskOutcome where
  | success (storyId chapterId chapterNumber : Nat)
  | errorNotFound (storyId : Nat)
  | raised (e : GenError)
deriving DecidableEq, Repr

/-- One invocation of the `generate_chapter` task body, translated step
by step from `apps/stories/tasks.py`: look up the story (absent →
error dict, no TaskStatus); get-or-create the TaskStatus and mark it
processing; load prior chapters ordered by number; get-or-create the
Chapter placeholder; build the prompt; call the client; on
`StoryGenerationError` mark the TaskStatus failed only when
`retries >= max_retries`, then re-raise; on a soft time limit mark
failed and re-raise; on success parse the response, persist content /
choices / `is_generated = True` (note: the parsed choices are persisted
unchanged, with no final-chapter truncation), mark the TaskStatus
completed, and complete the story when `chapter_number >=
story.max_chapters`. -/
def generate_chapter (db : DB) (storyId chapterNumber : Nat)
    (selectedChoice : Option (List Char)) (taskId : Nat)
    (retries maxRetries : Nat)
    (clientResult : Except GenError (List Char)) : TaskOutcome × DB :=
  match findStory db storyId with
  | none => (.errorNotFound storyId, db)
  | some story =>
    let db1 := (taskGetOrCreate db taskId storyId chapterNumber).2
    let db2 := taskMarkProcessing db1 taskId
    let previous := sortByNumber (db2.chapters.filter (fun c => c.storyId == storyId))
    let cg := chapterGetOrCreate db2 storyId chapterNumber
    let _prompt := build_chapter_prompt story previous selectedChoice chapterNumber
    match clientResult with
    | .error .softTimeLimitExceeded =>
      (.raised .softTimeLimitExceeded, taskMarkFailed cg.2 taskId "Generation timed out".data)
    | .error (.storyGenerationError msg) =>
      if maxRetries ≤ retries then
        (.raised (.storyGenerationError msg), taskMarkFailed cg.2 taskId msg)
      else
        (.raised (.storyGenerationError msg), cg.2)
    | .ok text =>
      let parsed := parse_response text
      let db4 := chapterUpdate cg.2 cg.1.id parsed.content parsed.choices
      let db5 := taskMarkCompleted db4 taskId
      let db6 := if story.maxChapters ≤ chapterNumber then story_complete db5 storyId else db5
      (.success storyId cg.1.id chapterNumber, db6)

/-- Result of running the task under Celery's retry policy. -/
structure CeleryResult where
  outcome : TaskOutcome
  db : DB
  attempts : Nat
deriving DecidableEq, Repr

/-- Is the outcome a raised `StoryGenerationError` (the only exception
in `autoretry_for`)? -/
def isSGE : TaskOutcome → Bool
  | .raised (.storyGenerationError _) => true
  | _ => false

/-- Celery's `autoretry_for=(StoryGenerationError,)` with
`max_retries`: re-invoke the body with `retries` incremented while a
`StoryGenerationError` escapes and `retries < max_retries`; any other
outcome (success, error dict, soft time limit) stops.  `fuel` is spent
once per re-delivery, so `max_retries` fuel is always enough. -/
def celeryRunAux (storyId chapterNumber : Nat) (selectedChoice : Option (List Char))
    (taskId maxRetries : Nat) (oracle : Nat → Except GenError (List Char)) :
    Nat → Nat → DB → CeleryResult
  | fuel, k, db =>
    let r := generate_chapter db storyId chapterNumber selectedChoice taskId k maxRetries (oracle k)
    match fuel with
    | f + 1 =>
      if isSGE r.1 && decide (k < maxRetries) then
        celeryRunAux storyId chapterNumber selectedChoice taskId maxRetries oracle f (k + 1) r.2
      else ⟨r.1, r.2, k + 1⟩
    | 0 => ⟨r.1, r.2, k + 1⟩

/-- A full Celery execution of `generate_chapter` with `max_retries =
maxRetries`; `oracle k` is what the client call does on the attempt
with `retries = k`. -/
def celeryRun (db : DB) (storyId chapterNumber : Nat)
    (selectedChoice : Option (List Char)) (taskId maxRetries : Nat)
    (oracle : Nat → Except GenError (List Char)) : CeleryResult :=
  celeryRunAux storyId chapterNumber selectedChoice taskId maxRetries oracle maxRetries 0 db

/-! ### Core operations for the story state machine (claim C5) -/

/-- The core operations that touch a story's status. -/
inductive Op where
  | genChapter (storyId chapterNumber : Nat) (selectedChoice : Option (List Char))
      (taskId retries maxRetries : Nat) (clientResult : Except GenError (List Char))
  | complete (storyId : Nat)
  | cancel (storyId : Nat)

/-- Application of one core operation to the database. -/
def applyOp (db : DB) : Op → DB
  | .genChapter sid n sc tid r mr cr => (generate_chapter db sid n sc tid r mr cr).2
  | .complete sid => story_complete db sid
  | .cancel sid => story_cancel db sid

/-- The status of story `sid` (defaulting for an absent story). -/
def statusOf (db : DB) (sid : Nat) : StoryStatus :=
  match findStory db sid with
  | some s => s.status
  | none => .inProgress

/-- The statuses story `sid` passes through while a sequence of core
operations runs (initial status included). -/
def statusTrace (db : DB) (sid : Nat) : List Op → List StoryStatus
  | [] => [statusOf db sid]
  | op :: ops => statusOf db sid :: statusTrace (applyOp db op) sid ops

/-! ### `OllamaClient.generate_sync` (`apps/stories/services/ollama_client.py`) -/

/-- What one underlying HTTP attempt does: succeed with a response
text, raise `httpx.TimeoutException`, raise an `httpx.NetworkError`
(with a message), or return an HTTP error status (so
`raise_for_status` raises `httpx.HTTPStatusError`). -/
inductive AttemptResult where
  | ok (text : List Char)
  | timeout
  | netError (msg : List Char)
  | httpStatus (code : Nat)
deriving DecidableEq, Repr

/-- The exception types that can leave the decorated function body. -/
inductive PyExc where
  | storyGenerationError (msg : List Char)
  | httpTimeout
  | httpNetwork (msg : List Char)
  | httpStatusError (code : Nat)
deriving DecidableEq, Repr

/-- The body of `generate_sync` (the `try`/`except` block): every httpx
error is caught and translated into `StoryGenerationError` before it
can leave the function. -/
def generateSyncBody (att : AttemptResult) : Except PyExc (List Char) :=
  match att with
  | .ok text => .ok text
  | .httpStatus code =>
    .error (.storyGenerationError ("Ollama API error: ".data ++ (toString code).data))
  | .timeout => .error (.storyGenerationError "Ollama request timed out".data)
  | .netError msg => .error (.storyGenerationError ("Network error: ".data ++ msg))

/-- Model: `retry_if_exception_type((httpx.TimeoutException,
httpx.NetworkError))`: the tenacity predicate deciding whether a raised
exception triggers a retry. -/
def tenacityShouldRetry : PyExc → Bool
  | .httpTimeout => true
  | .httpNetwork _ => true
  | _ => false

/-- The tenacity `@retry(stop=stop_after_attempt(3), ...,
reraise=True)` wrapper: run the wrapped body; on an exception matching
the retry predicate start another attempt while fewer than `stop`
attempts were made, otherwise re-raise.  Returns the result together
with the number of attempts actually made. -/
def tenacityRetry (stop : Nat) (body : Nat → Except PyExc (List Char)) :
    Nat → Nat → Except PyExc (List Char) × Nat
  | fuel, k =>
    let r := body k
    match fuel, r with
    | f + 1, .error e =>
      if tenacityShouldRetry e && k + 1 < stop then tenacityRetry stop body f (k + 1)
      else (r, k + 1)
    | _, _ => (r, k + 1)

/-- Model: `OllamaClient.generate_sync` under the tenacity decorator:
`attempts k` is what the `k`-th underlying HTTP attempt would do.
Returns the final result (`.ok` text or the raised exception) and the
number of attempts made. -/
def generate_sync (attempts : Nat → AttemptResult) : Except PyExc (List Char) × Nat :=
  tenacityRetry 3 (fun k => generateSyncBody (attempts k)) 3 0

/-! ### Claim-specific definitions -/

/-- A database holding exactly one fresh, in-progress story. -/
def freshStoryDB (sid : Nat) (prem lang : List Char) (maxCh : Nat) : DB :=
  ⟨[⟨sid, prem, lang, maxCh, .inProgress⟩], [], [], 0⟩

/-- Number of `Chapter` rows for `(storyId, chapterNumber)`. -/
def chapterRowCount (db : DB) (sid n : Nat) : Nat :=
  (db.chapters.filter (fun c => c.storyId == sid && c.chapterNumber == n)).length

/-- The well-formed choices block of claim C6: each item rendered as
`"d. text"`, items joined by newlines.  (This renders the claim's
"choices section of numbered items"; it is the spec-side description of
a well-formed response, to be fed to the source-side
`parse_response`.) -/
def itemsBlock : List (Char × List Char) → List Char
  | [] => []
  | [(d, t)] => d :: '.' :: ' ' :: t
  | (d, t) :: rest => (d :: '.' :: ' ' :: t) ++ '\n' :: itemsBlock rest

/-- The well-formed response of claim C6: content enclosed in chapter
delimiters followed by an explicit choices section of numbered items.
(Spec-side description of a well-formed response.) -/
def mkWFResponse (body : List Char) (items : List (Char × List Char)) : List Char :=
  "[CHAPTER]\n".data ++ body ++ "\n[/CHAPTER]\n\n[CHOICES]\n".data ++
    itemsBlock items ++ "\n[/CHOICES]".data

/-- The transition relation asserted by claim C5: a story's status
either stays put or moves from `in_progress` to a terminal state;
terminal states are never left. -/
def claimC5Step (a b : StoryStatus) : Bool :=
  a == b || (a == .inProgress && (b == .completed || b == .cancelled))

/-- Claim C5 as stated: along every run of core operations, consecutive
statuses of any story are related by `claimC5Step`. -/
def claimC5Prop : Prop :=
  ∀ (db : DB) (sid : Nat) (ops : List Op),
    List.Chain' (fun a b => claimC5Step a b = true) (statusTrace db sid ops)

/-- The amended transition relation for C5: a status step either stays
put or moves to a terminal state (so `in_progress` is never re-entered),
but terminal states are not protected from each other. -/
def amendedC5Step (a b : StoryStatus) : Bool :=
  b == a || b == .completed || b == .cancelled

/-- Claim C4 as stated, over fresh single-story databases: the Celery
layer makes at most 3 attempts total, and a client failing all of the
first 3 attempts leaves the TaskStatus failed. -/
def claimC4Prop : Prop :=
  ∀ (sid : Nat) (prem lang : List Char) (maxCh n : Nat) (sc : Option (List Char))
    (tid : Nat) (oracle : Nat → Except GenError (List Char)) (m : Nat → List Char),
    (celeryRun (freshStoryDB sid prem lang maxCh) sid n sc tid 3 oracle).attempts ≤ 3 ∧
    ((∀ k, k < 3 → oracle k = .error (.storyGenerationError (m k))) →
      (findTask (celeryRun (freshStoryDB sid prem lang maxCh) sid n sc tid 3 oracle).db
          tid).map (fun t => t.status) = some .failed)

/-- Database of the C1 scenario: one story whose `max_chapters` is 1,
so chapter 1 is final. -/
def c1db : DB := freshStoryDB 0 "A quest.".data "en".data 1

/-- A model response for a final chapter in which the model disobeyed
the final-chapter instructions and emitted a choices section anyway. -/
def c1response : List Char :=
  "[CHAPTER]\nThe end.\n[/CHAPTER]\n\n[CHOICES]\n1. Continue the adventure\n2. Stop here\n[/CHOICES]".data

/-- Story of the C2 scenario: English language, not final. -/
def c2story : StoryRow := ⟨0, "A quest.".data, "en".data, 5, .inProgress⟩

/-- One generated previous chapter for the C2 scenario. -/
def c2prev : List ChapterRow := [⟨0, 0, 1, "First chapter.".data, [], none, true⟩]

/-- Attempt behaviour of the C3 scenario: the first HTTP attempt hits a
network error, any further attempt would succeed. -/
def c3attempts : Nat → AttemptResult :=
  fun k => if k = 0 then .netError "connection refused".data else .ok "hello".data

/-- The C6 counterexample input: a well-formed response whose items are
numbered `1)` / `2)` instead of `1.` / `2.`. -/
def c6response : List Char :=
  "[CHAPTER]\nStory.\n[/CHAPTER]\n\n[CHOICES]\n1) Go left\n2) Go right\n[/CHOICES]".data

/-- The C7 failing input: a marker-led numbered list in the middle of
the narrative, followed by a blank line and further prose. -/
def c7content : List Char :=
  "The hero pondered.\nOptions:\n1. Go north\n2. Go south\n\nBut fate had other plans, and the journey continued for many days.".data

/-- The database state left behind by a failed, non-final
`generate_chapter` attempt on a fresh single-story database: the
TaskStatus row exists and is still `processing`, and the empty Chapter
placeholder has been created. -/
def failedAttemptDB (sid : Nat) (prem lang : List Char) (maxCh n tid : Nat) : DB :=
  ⟨[⟨sid, prem, lang, maxCh, .inProgress⟩],
   [⟨0, sid, n, [], [], none, false⟩],
   [⟨tid, sid, n, .processing, []⟩], 1⟩

/-- A database whose story 0 already has a generated chapter 1 (for
the idempotence / re-delivery scenarios of claims C9 and C10). -/
def regeneratedDB : DB :=
  ⟨[⟨0, "P".data, "en".data, 3, .inProgress⟩],
   [⟨5, 0, 1, "Old text.".data, ["Old choice".data], none, true⟩], [], 6⟩

/-- A model response used when re-generating an existing chapter. -/
def regenResponse : List Char := "[CHAPTER]\nNew text.\n[/CHAPTER]".data

/-- Does comparing `needle` against this hay-prefix hit a mismatch
before the prefix runs out?  (If so, no continuation of the hay can
make the needle match here.) -/
def definiteMismatch : List Char → List Char → Bool
  | _, [] => false
  | [], _ :: _ => false
  | c :: t, n :: ns => if c == n then definiteMismatch t ns else true

/-- Every position inside `p` definitely mismatches `nd`, whatever
follows `p`. -/
def blockFreeB (p nd : List Char) : Bool :=
  (List.range p.length).all (fun i => definiteMismatch (p.drop i) nd)

/-! ### Theorems -/

set_option maxRecDepth 100000

/-- Claim C8: `parse_response` is a total function (it is defined for
every input string in this embedding, mirroring the source, whose
operations cannot raise), always yields at most 3 choices, and on the
empty string yields empty content and no choices. -/
theorem parse_response_safe :
    (∀ response : List Char, (parse_response response).choices.length ≤ 3) ∧
      parse_response "".data = ⟨[], []⟩ := by
  constructor
  · intro response
    simp only [parse_response, List.length_take]
    omega
  · decide

/-- Claim C1 (code bug): for a final chapter (`max_chapters = 1`,
`chapter_number = 1`), a successful `generate_chapter` run persists the
parser's choices unchanged — the source has no final-chapter
`choices = []` truncation — so a model response that disobeys the
final-chapter instructions leaves a final chapter with nonempty
choices, while the story is still marked completed. -/
theorem generate_chapter_final_keeps_parsed_choices :
    (findStory c1db 0).map (fun s => s.maxChapters) = some 1 ∧
      (findChapter (generate_chapter c1db 0 1 none 7 0 3 (.ok c1response)).2 0 1).map
          (fun c => (c.choices, c.isGenerated)) =
        some (["Continue the adventure".data, "Stop here".data], true) ∧
      statusOf (generate_chapter c1db 0 1 none 7 0 3 (.ok c1response)).2 0 = .completed := by
  refine ⟨by decide, by decide, by decide⟩

/-- Claim C2 (code bug): in the English prompt for a story with a
previous chapter, the per-chapter summary label is the literal Russian
`"- Глава N: ..."` (the source does not branch on the language for this
line), while the surrounding labels are English. -/
theorem build_chapter_prompt_russian_label_in_english_prompt :
    c2story.language = "en".data ∧
      pyContains (build_chapter_prompt c2story c2prev none 2)
        "Summary of previous chapters:".data = true ∧
      pyContains (build_chapter_prompt c2story c2prev none 2) "Глава".data = true := by
  refine ⟨by decide, by decide, by decide⟩

/-- Claim C3 (code bug): the tenacity retry of `generate_sync` never
fires, because the body's `except` clauses translate
`httpx.TimeoutException` / `httpx.NetworkError` into
`StoryGenerationError` before the decorator can see them, and the
retry predicate only matches the httpx types.  A first-attempt network
error is raised to the caller after a single attempt even though the
second attempt would have succeeded. -/
theorem generate_sync_never_retries_network_errors :
    generate_sync c3attempts =
        (.error (.storyGenerationError "Network error: connection refused".data), 1) ∧
      c3attempts 1 = .ok "hello".data ∧
      tenacityShouldRetry (.storyGenerationError "Network error: connection refused".data)
        = false := by
  refine ⟨by decide, by decide, by decide⟩

/-- Claim C6, counterexample: on a well-formed response whose items are
numbered `1)` / `2)`, the `[CHOICES]`-section parser strips only the
characters of `lstrip("0123456789.")`, so the closing parenthesis of
the `N)` numbering is kept — the extracted choices are not the items
with the numbering stripped. -/
theorem parse_response_paren_numbering_kept :
    parse_response c6response =
        ⟨"Story.".data, [") Go left".data, ") Go right".data]⟩ ∧
      [") Go left".data, ") Go right".data] ≠ ["Go left".data, "Go right".data] := by
  refine ⟨by decide, by decide⟩

/-- Claim C7 (code bug): the marker-led fallback patterns are compiled
with `re.MULTILINE`, so their final `\s*$` can match at the end of a
line in the middle of the content; a marker-led numbered list in the
middle of the narrative, followed by a blank line, is extracted as
choices and everything after it is silently cut from the content. -/
theorem extract_choices_fallback_multiline_truncates :
    extract_choices_fallback c7content =
        (["Go north".data, "Go south".data], "The hero pondered.".data) ∧
      pyContains c7content "But fate had other plans".data = true := by
  refine ⟨by decide, by decide⟩

/-- Claim C5, counterexample: the status-transition invariant fails —
`story_complete` and `story_cancel` assign unconditionally, so running
`story_complete` and then `story_cancel` moves a story from
`completed` to `cancelled`, leaving a terminal state. -/
theorem story_status_claim_false : ¬ claimC5Prop := by
  intro h
  have hc := h (freshStoryDB 0 "P".data "en".data 2) 0 [.complete 0, .cancel 0]
  have ht : statusTrace (freshStoryDB 0 "P".data "en".data 2) 0 [.complete 0, .cancel 0] =
      [.inProgress, .completed, .cancelled] := by decide
  rw [ht] at hc
  have hstep := (List.chain'_cons.mp (List.chain'_cons.mp hc).2).1
  exact absurd hstep (by decide)

/-- Claim C4, counterexample: with `max_retries = 3` the Celery layer
makes up to 4 attempts (1 initial + 3 retries), not 3; a client that
fails the first 3 attempts and would succeed on a 4th ends with the
TaskStatus completed, not failed. -/
theorem task_retry_claim_false : ¬ claimC4Prop := by
  intro h
  obtain ⟨h1, h2⟩ := h 0 "P".data "en".data 1 1 none 7
    (fun k => if k < 3 then .error (.storyGenerationError "boom".data)
      else .ok "The end.".data)
    (fun _ => "boom".data)
  have h3 := h2 (by decide)
  exact absurd h3 (by decide)

/-! #### Story-status lemmas (claim C5) -/

/-- Fact: `find?` by id commutes with mapping an id-preserving function. -/
theorem find?_story_map (g : StoryRow → StoryRow) (hg : ∀ s, (g s).id = s.id)
    (sid : Nat) :
    ∀ l : List StoryRow,
      (l.map g).find? (fun s => s.id == sid) = (l.find? (fun s => s.id == sid)).map g := by
  intro l
  induction l with
  | nil => rfl
  | cons a t ih =>
    simp only [List.map_cons, List.find?, hg a]
    cases h : (a.id == sid) <;> simp [h, ih]

/-- Fact: `statusOf` only looks at the stories table. -/
theorem statusOf_congr {db db' : DB} (h : db'.stories = db.stories) (sid : Nat) :
    statusOf db' sid = statusOf db sid := by
  unfold statusOf findStory
  rw [h]

/-- Fact: `taskGetOrCreate` does not touch the stories table. -/
theorem taskGetOrCreate_stories (db : DB) (tid sid n : Nat) :
    ((taskGetOrCreate db tid sid n).2).stories = db.stories := by
  unfold taskGetOrCreate
  cases findTask db tid <;> rfl

/-- Fact: `chapterGetOrCreate` does not touch the stories table. -/
theorem chapterGetOrCreate_stories (db : DB) (sid n : Nat) :
    ((chapterGetOrCreate db sid n).2).stories = db.stories := by
  unfold chapterGetOrCreate
  cases findChapter db sid n <;> rfl

/-- Fact: `story_complete` leaves a story's status unchanged or `completed`. -/
theorem statusOf_story_complete (db : DB) (sid' sid : Nat) :
    statusOf (story_complete db sid') sid = statusOf db sid ∨
      statusOf (story_complete db sid') sid = .completed := by
  unfold statusOf story_complete findStory
  rw [show ({ db with stories := db.stories.map (fun s =>
        if s.id == sid' then { s with status := StoryStatus.completed } else s) } : DB).stories
      = db.stories.map (fun s =>
        if s.id == sid' then { s with status := StoryStatus.completed } else s) from rfl]
  rw [find?_story_map _ (fun s => by split <;> rfl)]
  cases h : db.stories.find? (fun s => s.id == sid) with
  | none => left; rfl
  | some s =>
    by_cases hs : s.id = sid'
    · right; simp [hs]
    · left; simp [hs]

/-- Fact: `story_cancel` leaves a story's status unchanged or `cancelled`. -/
theorem statusOf_story_cancel (db : DB) (sid' sid : Nat) :
    statusOf (story_cancel db sid') sid = statusOf db sid ∨
      statusOf (story_cancel db sid') sid = .cancelled := by
  unfold statusOf story_cancel findStory
  rw [show ({ db with stories := db.stories.map (fun s =>
        if s.id == sid' then { s with status := StoryStatus.cancelled } else s) } : DB).stories
      = db.stories.map (fun s =>
        if s.id == sid' then { s with status := StoryStatus.cancelled } else s) from rfl]
  rw [find?_story_map _ (fun s => by split <;> rfl)]
  cases h : db.stories.find? (fun s => s.id == sid) with
  | none => left; rfl
  | some s =>
    by_cases hs : s.id = sid'
    · right; simp [hs]
    · left; simp [hs]

/-- A step made of an optional `story_complete` on top of a database
with unchanged stories moves a story's status to itself or
`completed`. -/
theorem statusOf_step {db dbX : DB} (h : dbX.stories = db.stories)
    (cond : Prop) [Decidable cond] (sid' sid : Nat) :
    statusOf (if cond then story_complete dbX sid' else dbX) sid = statusOf db sid ∨
      statusOf (if cond then story_complete dbX sid' else dbX) sid = .completed := by
  split
  · rcases statusOf_story_complete dbX sid' sid with h' | h'
    · left; rw [h', statusOf_congr h]
    · right; exact h'
  · left; exact statusOf_congr h sid

/-- A `generate_chapter` invocation leaves a story's status unchanged
or `completed` (the only story write in the task is
`story_complete`). -/
theorem statusOf_generate_chapter (db : DB) (sid' n : Nat)
    (sc : Option (List Char)) (tid r mr : Nat)
    (cr : Except GenError (List Char)) (sid : Nat) :
    statusOf (generate_chapter db sid' n sc tid r mr cr).2 sid = statusOf db sid ∨
      statusOf (generate_chapter db sid' n sc tid r mr cr).2 sid = .completed := by
  unfold generate_chapter
  cases hfs : findStory db sid' with
  | none => left; rfl
  | some story =>
    have hpipe :
        ((chapterGetOrCreate (taskMarkProcessing ((taskGetOrCreate db tid sid' n).2) tid)
          sid' n).2).stories = db.stories := by
      rw [chapterGetOrCreate_stories]
      rw [show (taskMarkProcessing ((taskGetOrCreate db tid sid' n).2) tid).stories
          = ((taskGetOrCreate db tid sid' n).2).stories from rfl]
      exact taskGetOrCreate_stories db tid sid' n
    cases cr with
    | error e =>
      cases e with
      | storyGenerationError msg =>
        by_cases hr : mr ≤ r
        · left
          simp only [hr, if_true]
          exact statusOf_congr hpipe sid
        · left
          simp only [hr, if_false]
          exact statusOf_congr hpipe sid
      | softTimeLimitExceeded =>
        left
        exact statusOf_congr hpipe sid
    | ok text =>
      have h5 : (taskMarkCompleted (chapterUpdate
          ((chapterGetOrCreate (taskMarkProcessing ((taskGetOrCreate db tid sid' n).2) tid)
            sid' n).2)
          ((chapterGetOrCreate (taskMarkProcessing ((taskGetOrCreate db tid sid' n).2) tid)
            sid' n).1).id
          (parse_response text).content (parse_response text).choices) tid).stories
          = db.stories := hpipe
      exact statusOf_step h5 (story.maxChapters ≤ n) sid' sid

/-- Each core operation moves a story's status to itself, `completed`,
or `cancelled`. -/
theorem amendedC5Step_applyOp (db : DB) (op : Op) (sid : Nat) :
    amendedC5Step (statusOf db sid) (statusOf (applyOp db op) sid) = true := by
  cases op with
  | genChapter sid' n sc tid r mr cr =>
    rcases statusOf_generate_chapter db sid' n sc tid r mr cr sid with h | h <;>
      simp [applyOp, amendedC5Step, h]
  | complete sid' =>
    rcases statusOf_story_complete db sid' sid with h | h <;>
      simp [applyOp, amendedC5Step, h]
  | cancel sid' =>
    rcases statusOf_story_cancel db sid' sid with h | h <;>
      simp [applyOp, amendedC5Step, h]

/-- The head of a status trace is the current status. -/
theorem statusTrace_head (db : DB) (sid : Nat) (ops : List Op) :
    (statusTrace db sid ops).head? = some (statusOf db sid) := by
  cases ops <;> rfl

/-- Claim C5, amended: along every run of the core operations
(`generate_chapter`, `story_complete`, `story_cancel`), each status
step of any story either stays put or goes to `completed` or
`cancelled` — in particular `in_progress` is never re-entered — but
terminal states are not guarded against each other: `story_complete`
and `story_cancel` assign unconditionally, so `completed ↔ cancelled`
overwrites are possible. -/
theorem story_status_transitions :
    ∀ (ops : List Op) (db : DB) (sid : Nat),
      List.Chain' (fun a b => amendedC5Step a b = true) (statusTrace db sid ops) := by
  intro ops
  induction ops with
  | nil => intro db sid; simp [statusTrace]
  | cons op ops ih =>
    intro db sid
    rw [show statusTrace db sid (op :: ops)
        = statusOf db sid :: statusTrace (applyOp db op) sid ops from rfl]
    rw [List.chain'_cons']
    refine ⟨?_, ih _ _⟩
    intro b hb
    rw [statusTrace_head] at hb
    simp only [Option.mem_def, Option.some.injEq] at hb
    subst hb
    exact amendedC5Step_applyOp db op sid

/-! #### Chapter-row lemmas (claims C9 and C10) -/

/-- Fact: `taskGetOrCreate` does not touch the chapters table. -/
theorem taskGetOrCreate_chapters (db : DB) (tid sid n : Nat) :
    ((taskGetOrCreate db tid sid n).2).chapters = db.chapters := by
  unfold taskGetOrCreate
  cases findTask db tid <;> rfl

/-- Fact: `findChapter` only looks at the chapters table. -/
theorem findChapter_congr {db db' : DB} (h : db'.chapters = db.chapters) (sid n : Nat) :
    findChapter db' sid n = findChapter db sid n := by
  unfold findChapter
  rw [h]

/-- Fact: `chapterRowCount` only looks at the chapters table. -/
theorem chapterRowCount_congr {db db' : DB} (h : db'.chapters = db.chapters) (sid n : Nat) :
    chapterRowCount db' sid n = chapterRowCount db sid n := by
  unfold chapterRowCount
  rw [h]

/-- Filtering is unaffected by mapping a function that preserves the
predicate. -/
theorem filter_length_map {α : Type} (g : α → α) (p : α → Bool)
    (hp : ∀ a, p (g a) = p a) :
    ∀ l : List α, (List.filter p (l.map g)).length = (List.filter p l).length := by
  intro l
  induction l with
  | nil => rfl
  | cons a t ih =>
    simp only [List.map_cons, List.filter, hp a]
    cases p a <;> simp [ih]

/-- Fact: `find?` by chapter key commutes with mapping a key-preserving
function. -/
theorem find?_chapter_map (g : ChapterRow → ChapterRow)
    (hg : ∀ c, (g c).storyId = c.storyId ∧ (g c).chapterNumber = c.chapterNumber)
    (sid n : Nat) :
    ∀ l : List ChapterRow,
      (l.map g).find? (fun c => c.storyId == sid && c.chapterNumber == n) =
        (l.find? (fun c => c.storyId == sid && c.chapterNumber == n)).map g := by
  intro l
  induction l with
  | nil => rfl
  | cons a t ih =>
    simp only [List.map_cons, List.find?, (hg a).1, (hg a).2]
    cases h : (a.storyId == sid && a.chapterNumber == n) <;> simp [h, ih]

/-- Fact: `chapterUpdate` preserves the number of rows per chapter key. -/
theorem chapterRowCount_chapterUpdate (db : DB) (cid : Nat) (cnt : List Char)
    (chs : List (List Char)) (sid n : Nat) :
    chapterRowCount (chapterUpdate db cid cnt chs) sid n = chapterRowCount db sid n := by
  unfold chapterRowCount chapterUpdate
  exact filter_length_map _ _ (fun c => by split <;> rfl) db.chapters

/-- Fact: `findChapter` after `chapterUpdate`. -/
theorem findChapter_chapterUpdate (db : DB) (cid : Nat) (cnt : List Char)
    (chs : List (List Char)) (sid n : Nat) :
    findChapter (chapterUpdate db cid cnt chs) sid n =
      (findChapter db sid n).map (fun c =>
        if c.id == cid then
          { c with content := cnt, choices := chs, isGenerated := true }
        else c) := by
  unfold findChapter chapterUpdate
  exact find?_chapter_map
    (fun c => if c.id == cid then
      { c with content := cnt, choices := chs, isGenerated := true } else c)
    (fun c => by by_cases h : (c.id == cid) = true <;> simp [h]) sid n db.chapters

/-- Fact: `story_complete` does not touch the chapters table. -/
theorem story_complete_chapters (db : DB) (sid : Nat) :
    (story_complete db sid).chapters = db.chapters := rfl

/-- Chapters of the database reached just before the client call, when
the target chapter already exists: `get_or_create` reuses the existing
row and adds nothing. -/
theorem pipeline_chapters_of_existing (db : DB) (tid sid n : Nat) (r : ChapterRow)
    (hchap : findChapter db sid n = some r) :
    (chapterGetOrCreate (taskMarkProcessing ((taskGetOrCreate db tid sid n).2) tid) sid n)
        = (r, taskMarkProcessing ((taskGetOrCreate db tid sid n).2) tid) := by
  have hch2 : (taskMarkProcessing ((taskGetOrCreate db tid sid n).2) tid).chapters
      = db.chapters := by
    rw [show (taskMarkProcessing ((taskGetOrCreate db tid sid n).2) tid).chapters
        = ((taskGetOrCreate db tid sid n).2).chapters from rfl]
    exact taskGetOrCreate_chapters db tid sid n
  unfold chapterGetOrCreate
  rw [findChapter_congr hch2, hchap]

/-- Claim C9: when the chapter row for `(story_id, chapter_number)`
already exists (and is the unique row for that key, as the
`unique_together` constraint guarantees), re-invoking
`generate_chapter` with a successful client call does not raise — it
returns the success dict for the existing row's id — and creates no
second row: the row count for the key is still 1 and the chapters
table has the same length. -/
theorem generate_chapter_idempotent (db : DB) (sid n : Nat) (story : StoryRow)
    (r : ChapterRow) (sc : Option (List Char)) (tid ret mr : Nat) (text : List Char)
    (hstory : findStory db sid = some story)
    (hchap : findChapter db sid n = some r)
    (hcount : chapterRowCount db sid n = 1) :
    (generate_chapter db sid n sc tid ret mr (.ok text)).1 = .success sid r.id n ∧
      chapterRowCount (generate_chapter db sid n sc tid ret mr (.ok text)).2 sid n = 1 ∧
      (generate_chapter db sid n sc tid ret mr (.ok text)).2.chapters.length
        = db.chapters.length := by
  have hpipe := pipeline_chapters_of_existing db tid sid n r hchap
  have hch2 : (taskMarkProcessing ((taskGetOrCreate db tid sid n).2) tid).chapters
      = db.chapters := by
    rw [show (taskMarkProcessing ((taskGetOrCreate db tid sid n).2) tid).chapters
        = ((taskGetOrCreate db tid sid n).2).chapters from rfl]
    exact taskGetOrCreate_chapters db tid sid n
  have hfinal : ∀ dbX : DB,
      ((if story.maxChapters ≤ n then story_complete dbX sid else dbX)).chapters
        = dbX.chapters := by
    intro dbX; split <;> rfl
  unfold generate_chapter
  rw [hstory]
  simp only [hpipe]
  refine ⟨?_, ?_, ?_⟩
  · trivial
  · rw [chapterRowCount_congr (hfinal _)]
    rw [chapterRowCount_congr (show (taskMarkCompleted (chapterUpdate
        (taskMarkProcessing ((taskGetOrCreate db tid sid n).2) tid) r.id
        (parse_response text).content (parse_response text).choices) tid).chapters
        = (chapterUpdate (taskMarkProcessing ((taskGetOrCreate db tid sid n).2) tid) r.id
          (parse_response text).content (parse_response text).choices).chapters from rfl)]
    rw [chapterRowCount_chapterUpdate, chapterRowCount_congr hch2]
    exact hcount
  · rw [hfinal _]
    simp [chapterUpdate, taskMarkCompleted, taskMap, hch2]

/-- Claim C9, witness. -/
theorem generate_chapter_idempotent_witness :
    (generate_chapter regeneratedDB 0 1 none 9 0 3 (.ok regenResponse)).1
        = .success 0 5 1 ∧
      chapterRowCount (generate_chapter regeneratedDB 0 1 none 9 0 3 (.ok regenResponse)).2 0 1
        = 1 ∧
      (generate_chapter regeneratedDB 0 1 none 9 0 3 (.ok regenResponse)).2.chapters.length
        = regeneratedDB.chapters.length :=
  generate_chapter_idempotent regeneratedDB 0 1
    ⟨0, "P".data, "en".data, 3, .inProgress⟩
    ⟨5, 0, 1, "Old text.".data, ["Old choice".data], none, true⟩
    none 9 0 3 regenResponse (by decide) (by decide) (by decide)

/-- Claim C10: re-invoking `generate_chapter` for an already-generated
chapter does not skip generation — on a successful client call the
existing row's content and choices are overwritten with the newly
parsed values (and `is_generated` stays true), so under at-least-once
redelivery an already-visible chapter's text can be replaced by a
different generation. -/
theorem generate_chapter_overwrites (db : DB) (sid n : Nat) (story : StoryRow)
    (r : ChapterRow) (sc : Option (List Char)) (tid ret mr : Nat) (text : List Char)
    (hstory : findStory db sid = some story)
    (hchap : findChapter db sid n = some r) :
    findChapter (generate_chapter db sid n sc tid ret mr (.ok text)).2 sid n =
      some { r with content := (parse_response text).content,
                    choices := (parse_response text).choices,
                    isGenerated := true } := by
  have hpipe := pipeline_chapters_of_existing db tid sid n r hchap
  have hch2 : (taskMarkProcessing ((taskGetOrCreate db tid sid n).2) tid).chapters
      = db.chapters := by
    rw [show (taskMarkProcessing ((taskGetOrCreate db tid sid n).2) tid).chapters
        = ((taskGetOrCreate db tid sid n).2).chapters from rfl]
    exact taskGetOrCreate_chapters db tid sid n
  have hfinal : ∀ dbX : DB,
      ((if story.maxChapters ≤ n then story_complete dbX sid else dbX)).chapters
        = dbX.chapters := by
    intro dbX; split <;> rfl
  unfold generate_chapter
  rw [hstory]
  simp only [hpipe]
  rw [findChapter_congr (hfinal _)]
  rw [findChapter_congr (show (taskMarkCompleted (chapterUpdate
      (taskMarkProcessing ((taskGetOrCreate db tid sid n).2) tid) r.id
      (parse_response text).content (parse_response text).choices) tid).chapters
      = (chapterUpdate (taskMarkProcessing ((taskGetOrCreate db tid sid n).2) tid) r.id
        (parse_response text).content (parse_response text).choices).chapters from rfl)]
  rw [findChapter_chapterUpdate]
  rw [findChapter_congr hch2, hchap]
  simp

/-- Claim C10, witness: chapter 1 of `regeneratedDB` held
`"Old text."`, and the re-run replaces it with the newly parsed
`"New text."`. -/
theorem generate_chapter_overwrites_witness :
    findChapter (generate_chapter regeneratedDB 0 1 none 9 0 3 (.ok regenResponse)).2 0 1 =
        some ⟨5, 0, 1, (parse_response regenResponse).content,
          (parse_response regenResponse).choices, none, true⟩ ∧
      (parse_response regenResponse).content = "New text.".data ∧
      (findChapter regeneratedDB 0 1).map (fun c => c.content)
        = some "Old text.".data :=
  ⟨generate_chapter_overwrites regeneratedDB 0 1
      ⟨0, "P".data, "en".data, 3, .inProgress⟩
      ⟨5, 0, 1, "Old text.".data, ["Old choice".data], none, true⟩
      none 9 0 3 regenResponse (by decide) (by decide),
   by decide, by decide⟩

/-! #### Celery retry lemmas (claim C4) -/

/-- The Celery driver makes at most `k + fuel + 1` attempts. -/
theorem celeryRunAux_attempts_le (sid n : Nat) (sc : Option (List Char)) (tid mr : Nat)
    (oracle : Nat → Except GenError (List Char)) :
    ∀ (fuel k : Nat) (db : DB),
      (celeryRunAux sid n sc tid mr oracle fuel k db).attempts ≤ k + fuel + 1 := by
  intro fuel
  induction fuel with
  | zero =>
    intro k db
    rw [celeryRunAux]
  | succ f ih =>
    intro k db
    rw [celeryRunAux]
    split
    · exact le_trans (ih _ _) (by omega)
    · show k + 1 ≤ k + (f + 1) + 1
      omega

/-- A failed, non-final attempt on a fresh database produces the
intermediate state `failedAttemptDB`: the exception is re-raised and
the TaskStatus is *not* marked failed (it stays `processing`). -/
theorem gen_fail_fresh (sid : Nat) (prem lang : List Char) (maxCh n : Nat)
    (sc : Option (List Char)) (tid k : Nat) (msg : List Char) (hk : k < 3) :
    generate_chapter (freshStoryDB sid prem lang maxCh) sid n sc tid k 3
        (.error (.storyGenerationError msg)) =
      (.raised (.storyGenerationError msg), failedAttemptDB sid prem lang maxCh n tid) := by
  unfold generate_chapter freshStoryDB failedAttemptDB
  simp [findStory, findTask, findChapter, taskGetOrCreate, taskMarkProcessing, taskMap,
    chapterGetOrCreate, List.find?, Nat.not_le.mpr hk]

/-- A failed attempt on the intermediate state with `retries <
max_retries` re-raises and leaves the database unchanged (the
TaskStatus stays `processing`). -/
theorem gen_fail_mid (sid : Nat) (prem lang : List Char) (maxCh n : Nat)
    (sc : Option (List Char)) (tid k : Nat) (msg : List Char) (hk : k < 3) :
    generate_chapter (failedAttemptDB sid prem lang maxCh n tid) sid n sc tid k 3
        (.error (.storyGenerationError msg)) =
      (.raised (.storyGenerationError msg), failedAttemptDB sid prem lang maxCh n tid) := by
  unfold generate_chapter failedAttemptDB
  simp [findStory, findTask, findChapter, taskGetOrCreate, taskMarkProcessing, taskMap,
    chapterGetOrCreate, List.find?, Nat.not_le.mpr hk]

/-- The exhausted attempt (`retries ≥ max_retries`) marks the
TaskStatus failed with the error text and re-raises. -/
theorem gen_fail_last (sid : Nat) (prem lang : List Char) (maxCh n : Nat)
    (sc : Option (List Char)) (tid k : Nat) (msg : List Char) (hk : 3 ≤ k) :
    generate_chapter (failedAttemptDB sid prem lang maxCh n tid) sid n sc tid k 3
        (.error (.storyGenerationError msg)) =
      (.raised (.storyGenerationError msg),
        ⟨[⟨sid, prem, lang, maxCh, .inProgress⟩],
         [⟨0, sid, n, [], [], none, false⟩],
         [⟨tid, sid, n, .failed, msg⟩], 1⟩) := by
  unfold generate_chapter failedAttemptDB
  simp [findStory, findTask, findChapter, taskGetOrCreate, taskMarkProcessing, taskMap,
    taskMarkFailed, chapterGetOrCreate, List.find?, hk]

/-- A successful attempt on the intermediate state returns the success
dict and marks the TaskStatus completed. -/
theorem gen_ok_mid (sid : Nat) (prem lang : List Char) (maxCh n : Nat)
    (sc : Option (List Char)) (tid k : Nat) (text : List Char) :
    (generate_chapter (failedAttemptDB sid prem lang maxCh n tid) sid n sc tid k 3
        (.ok text)).1 = .success sid 0 n ∧
      findTask (generate_chapter (failedAttemptDB sid prem lang maxCh n tid) sid n sc tid k 3
        (.ok text)).2 tid = some ⟨tid, sid, n, .completed, []⟩ := by
  unfold generate_chapter failedAttemptDB
  constructor
  · simp [findStory, findTask, findChapter, taskGetOrCreate, taskMarkProcessing, taskMap,
      chapterGetOrCreate, List.find?]
  · by_cases hf : maxCh ≤ n <;>
      simp [findStory, findTask, findChapter, taskGetOrCreate, taskMarkProcessing, taskMap,
        taskMarkCompleted, chapterGetOrCreate, chapterUpdate, story_complete,
        List.find?, hf]

/-- Claim C4, amended: with `max_retries = 3` the Celery layer makes up
to 4 attempts total (1 initial + 3 retries).  Only the exhausted 4th
attempt (`retries = max_retries`) marks the TaskStatus failed, with the
last error's message, before the exception propagates; a client that
fails the first 2 attempts and succeeds on the 3rd ends completed after
exactly 3 attempts; and every non-exhausted failing attempt re-raises
without marking failed, leaving the TaskStatus `processing`. -/
theorem generate_chapter_retry_semantics (sid : Nat) (prem lang : List Char)
    (maxCh n : Nat) (sc : Option (List Char)) (tid : Nat)
    (oracle : Nat → Except GenError (List Char)) :
    (celeryRun (freshStoryDB sid prem lang maxCh) sid n sc tid 3 oracle).attempts ≤ 4 ∧
      (∀ m : Nat → List Char,
        (∀ k, k ≤ 3 → oracle k = .error (.storyGenerationError (m k))) →
          (celeryRun (freshStoryDB sid prem lang maxCh) sid n sc tid 3 oracle).outcome
              = .raised (.storyGenerationError (m 3)) ∧
            findTask (celeryRun (freshStoryDB sid prem lang maxCh) sid n sc tid 3 oracle).db
              tid = some ⟨tid, sid, n, .failed, m 3⟩ ∧
            (celeryRun (freshStoryDB sid prem lang maxCh) sid n sc tid 3 oracle).attempts
              = 4) ∧
      (∀ m0 m1 text, oracle 0 = .error (.storyGenerationError m0) →
        oracle 1 = .error (.storyGenerationError m1) → oracle 2 = .ok text →
          findTask (celeryRun (freshStoryDB sid prem lang maxCh) sid n sc tid 3 oracle).db
              tid = some ⟨tid, sid, n, .completed, []⟩ ∧
            (celeryRun (freshStoryDB sid prem lang maxCh) sid n sc tid 3 oracle).attempts
              = 3) ∧
      (∀ k msg, k < 3 →
        (generate_chapter (failedAttemptDB sid prem lang maxCh n tid) sid n sc tid k 3
            (.error (.storyGenerationError msg))).1 = .raised (.storyGenerationError msg) ∧
          findTask (generate_chapter (failedAttemptDB sid prem lang maxCh n tid) sid n sc tid
            k 3 (.error (.storyGenerationError msg))).2 tid
            = some ⟨tid, sid, n, .processing, []⟩) := by
  refine ⟨?_, ?_, ?_, ?_⟩
  · exact celeryRunAux_attempts_le sid n sc tid 3 oracle 3 0 _
  · intro m hm
    have h0 := hm 0 (by omega)
    have h1 := hm 1 (by omega)
    have h2 := hm 2 (by omega)
    have h3 := hm 3 (by omega)
    simp only [celeryRun, celeryRunAux, h0, h1, h2, h3,
      gen_fail_fresh sid prem lang maxCh n sc tid 0 (m 0) (by omega),
      gen_fail_mid sid prem lang maxCh n sc tid 1 (m 1) (by omega),
      gen_fail_mid sid prem lang maxCh n sc tid 2 (m 2) (by omega),
      gen_fail_last sid prem lang maxCh n sc tid 3 (m 3) (by omega), isSGE]
    simp [findTask, List.find?]
  · intro m0 m1 text h0 h1 h2
    simp only [celeryRun, celeryRunAux, h0, h1, h2,
      gen_fail_fresh sid prem lang maxCh n sc tid 0 m0 (by omega),
      gen_fail_mid sid prem lang maxCh n sc tid 1 m1 (by omega),
      (gen_ok_mid sid prem lang maxCh n sc tid 2 text).1, isSGE]
    exact ⟨(gen_ok_mid sid prem lang maxCh n sc tid 2 text).2, rfl⟩
  · intro k msg hk
    rw [gen_fail_mid sid prem lang maxCh n sc tid k msg hk]
    exact ⟨rfl, by simp [failedAttemptDB, findTask, List.find?]⟩

/-- Claim C4, amended, witness: a client failing every attempt yields 4
attempts and a failed TaskStatus carrying the error text. -/
theorem generate_chapter_retry_semantics_witness :
    (celeryRun (freshStoryDB 0 "P".data "en".data 5) 0 1 none 7 3
        (fun _ => .error (.storyGenerationError "boom".data))).attempts ≤ 4 ∧
      findTask (celeryRun (freshStoryDB 0 "P".data "en".data 5) 0 1 none 7 3
          (fun _ => .error (.storyGenerationError "boom".data))).db 7
        = some ⟨7, 0, 1, .failed, "boom".data⟩ := by
  have h := generate_chapter_retry_semantics 0 "P".data "en".data 5 1 none 7
    (fun _ => .error (.storyGenerationError "boom".data))
  exact ⟨h.1, (h.2.1 (fun _ => "boom".data) (fun k _ => rfl)).2.1⟩

/-! #### String lemmas for the well-formed round trip (claim C6) -/

/-- A needle is a prefix of itself followed by anything. -/
theorem startsWith_append_self : ∀ (nd rest : List Char), startsWith (nd ++ rest) nd = true := by
  intro nd
  induction nd with
  | nil => intro rest; cases rest <;> rfl
  | cons n ns ih => intro rest; simp [startsWith, ih]

/-- Fact: `find` of a needle standing at the very front. -/
theorem pyFind_here (nd rest : List Char) (h : nd ≠ []) :
    pyFind (nd ++ rest) nd = some 0 := by
  cases nd with
  | nil => exact absurd rfl h
  | cons n ns =>
    have hs : startsWith (n :: (ns ++ rest)) (n :: ns) = true :=
      startsWith_append_self (n :: ns) rest
    rw [show (n :: ns) ++ rest = n :: (ns ++ rest) from rfl, pyFind, hs]
    simp

/-- A failed prefix test steps `find` one character forward. -/
theorem pyFind_cons_not (c : Char) (t nd : List Char)
    (h : startsWith (c :: t) nd = false) :
    pyFind (c :: t) nd = (pyFind t nd).map (· + 1) := by
  rw [pyFind, h]
  rfl

/-- Prefix tests only look at the first `needle`-many characters. -/
theorem startsWith_take : ∀ (nd p rest : List Char), nd.length ≤ p.length →
    startsWith (p ++ rest) nd = startsWith p nd := by
  intro nd
  induction nd with
  | nil => intro p rest _; cases p <;> cases rest <;> rfl
  | cons n ns ih =>
    intro p rest hlen
    cases p with
    | nil => simp at hlen
    | cons c p' =>
      rw [show (c :: p') ++ rest = c :: (p' ++ rest) from rfl]
      rw [startsWith, startsWith, ih p' rest (by simpa using hlen)]

/-- Fact: `find` skips a block free of the needle's first character. -/
theorem pyFind_append_free (nh : Char) (ns : List Char) :
    ∀ (xs ys : List Char), (∀ c ∈ xs, c ≠ nh) →
      pyFind (xs ++ ys) (nh :: ns) = (pyFind ys (nh :: ns)).map (· + xs.length) := by
  intro xs
  induction xs with
  | nil =>
    intro ys _
    cases h : pyFind ys (nh :: ns) <;> simp [h]
  | cons x xs ih =>
    intro ys hfree
    have hx : x ≠ nh := hfree x (by simp)
    have hsw : startsWith (x :: (xs ++ ys)) (nh :: ns) = false := by
      rw [startsWith]
      have : (x == nh) = false := by simpa using hx
      rw [this, Bool.false_and]
    rw [show (x :: xs) ++ ys = x :: (xs ++ ys) from rfl, pyFind_cons_not _ _ _ hsw,
      ih ys (fun c hc => hfree c (by simp [hc]))]
    cases h : pyFind ys (nh :: ns) <;> simp [h]
    omega

/-- Dropping a trailing whitespace character commutes with `dropTrail`. -/
theorem dropTrail_append_ws (c : Char) (hc : isPySpace c = true) :
    ∀ l : List Char, dropTrail (l ++ [c]) = dropTrail l := by
  intro l
  induction l with
  | nil => simp [dropTrail, hc]
  | cons x t ih =>
    rw [show (x :: t) ++ [c] = x :: (t ++ [c]) from rfl, dropTrail, ih, dropTrail]

/-- Fact: `dropTrail` of a cons whose tail keeps characters. -/
theorem dropTrail_cons_of_ne (c : Char) (l : List Char) (h : dropTrail l ≠ []) :
    dropTrail (c :: l) = c :: dropTrail l := by
  rw [dropTrail]
  cases hl : dropTrail l with
  | nil => exact absurd hl h
  | cons a b => rfl

/-- Fact: `dropTrail` distributes over an append whose right part keeps
characters. -/
theorem dropTrail_append_of_ne (m : List Char) (hm : dropTrail m ≠ []) :
    ∀ l : List Char, dropTrail (l ++ m) = l ++ dropTrail m := by
  intro l
  induction l with
  | nil => rfl
  | cons c t ih =>
    rw [show (c :: t) ++ m = c :: (t ++ m) from rfl,
      dropTrail_cons_of_ne c (t ++ m) (by rw [ih]; simp [hm]), ih]
    rfl

/-- A leading whitespace character is dropped by `pyStrip`. -/
theorem pyStrip_cons_ws (c : Char) (hc : isPySpace c = true) (l : List Char) :
    pyStrip (c :: l) = pyStrip l := by
  unfold pyStrip
  rw [dropTrail]
  cases hl : dropTrail l with
  | nil => simp [dropLead, hc]
  | cons a b => simp [dropLead, hc]

/-- A trailing whitespace character is dropped by `pyStrip`. -/
theorem pyStrip_append_ws (c : Char) (hc : isPySpace c = true) (l : List Char) :
    pyStrip (l ++ [c]) = pyStrip l := by
  unfold pyStrip
  rw [dropTrail_append_ws c hc]

/-- Equation for `dropTrail` on a cons with an all-whitespace tail. -/
theorem dropTrail_cons_nil (c : Char) (t : List Char) (h : dropTrail t = []) :
    dropTrail (c :: t) = if isPySpace c = true then [] else [c] := by
  rw [dropTrail, h]

/-- Equation for `dropTrail` on a cons whose tail keeps characters. -/
theorem dropTrail_cons_cons (c : Char) (t : List Char) (a : Char) (b : List Char)
    (h : dropTrail t = a :: b) : dropTrail (c :: t) = c :: a :: b := by
  rw [dropTrail, h]

/-- Fact: `dropTrail` never grows the list. -/
theorem dropTrail_length_le : ∀ l : List Char, (dropTrail l).length ≤ l.length := by
  intro l
  induction l with
  | nil => simp [dropTrail]
  | cons c t ih =>
    cases hl : dropTrail t with
    | nil =>
      rw [dropTrail_cons_nil c t hl]
      split <;> simp
    | cons a b =>
      rw [dropTrail_cons_cons c t a b hl]
      rw [hl] at ih
      simpa using ih

/-- A length-preserving `dropTrail` is the identity. -/
theorem dropTrail_eq_self_of_length : ∀ l : List Char,
    (dropTrail l).length = l.length → dropTrail l = l := by
  intro l
  induction l with
  | nil => intro _; rfl
  | cons c t ih =>
    intro hlen
    cases hl : dropTrail t with
    | nil =>
      rw [dropTrail_cons_nil c t hl] at hlen ⊢
      by_cases hsp : isPySpace c = true
      · simp [hsp] at hlen
      · rw [if_neg hsp] at hlen ⊢
        have hl1 : (1 : Nat) = t.length + 1 := by simpa using hlen
        have ht : t = [] := List.length_eq_zero.mp (by omega)
        rw [ht]
    | cons a b =>
      rw [dropTrail_cons_cons c t a b hl] at hlen ⊢
      have ht := ih (by rw [hl]; simpa using hlen)
      rw [hl] at ht
      rw [ht]

/-- Fact: `dropLead` never grows the list. -/
theorem dropLead_length_le : ∀ l : List Char, (dropLead l).length ≤ l.length := by
  intro l
  induction l with
  | nil => simp [dropLead]
  | cons c t ih =>
    unfold dropLead List.dropWhile
    split
    · exact le_trans ih (by simp)
    · simp

/-- A length-preserving `dropLead` is the identity. -/
theorem dropLead_eq_self_of_length : ∀ l : List Char,
    (dropLead l).length = l.length → dropLead l = l := by
  intro l
  induction l with
  | nil => intro _; rfl
  | cons c t ih =>
    intro hlen
    unfold dropLead List.dropWhile at hlen ⊢
    split at hlen
    · have hle := dropLead_length_le t
      unfold dropLead at hle
      simp at hlen
      omega
    · rfl

/-- A strip-fixed string is `dropTrail`-fixed. -/
theorem dropTrail_eq_self_of_strip (t : List Char) (h : pyStrip t = t) :
    dropTrail t = t := by
  have h1 := dropLead_length_le (dropTrail t)
  have h2 := dropTrail_length_le t
  have h3 : (pyStrip t).length = t.length := by rw [h]
  unfold pyStrip at h3
  exact dropTrail_eq_self_of_length t (by omega)

/-- A strip-fixed string is `dropLead`-fixed. -/
theorem dropLead_eq_self_of_strip (t : List Char) (h : pyStrip t = t) :
    dropLead t = t := by
  have hdt := dropTrail_eq_self_of_strip t h
  unfold pyStrip at h
  rw [hdt] at h
  exact h

/-- Unfolding equation for `dropLead` on a cons. -/
theorem dropLead_cons (c : Char) (t : List Char) :
    dropLead (c :: t) = if isPySpace c = true then dropLead t else c :: t := by
  simp [dropLead, List.dropWhile_cons]

/-- A leading space in front of a nonempty strip-fixed string strips to
the string itself. -/
theorem pyStrip_space_cons (t : List Char) (h : pyStrip t = t) (hne : t ≠ []) :
    pyStrip (' ' :: t) = t := by
  have hdt := dropTrail_eq_self_of_strip t h
  have hdl := dropLead_eq_self_of_strip t h
  unfold pyStrip
  cases ht : dropTrail t with
  | nil => rw [ht] at hdt; exact absurd hdt.symm hne
  | cons a b =>
    rw [dropTrail_cons_cons ' ' t a b ht]
    rw [ht] at hdt
    rw [dropLead_cons, if_pos (show isPySpace ' ' = true from rfl)]
    rw [show dropLead (a :: b) = dropLead t by rw [hdt]]
    exact hdl

/-- Membership is preserved from `dropTrail l` into `l`. -/
theorem mem_of_mem_dropTrail (c : Char) : ∀ l : List Char, c ∈ dropTrail l → c ∈ l := by
  intro l
  induction l with
  | nil => intro h; exact h
  | cons x t ih =>
    intro h
    cases hl : dropTrail t with
    | nil =>
      rw [dropTrail_cons_nil x t hl] at h
      split at h
      · cases h
      · simp at h
        simp [h]
    | cons a b =>
      rw [dropTrail_cons_cons x t a b hl] at h
      rcases List.mem_cons.mp h with h | h
      · simp [h]
      · exact List.mem_cons_of_mem x (ih (hl ▸ h))

/-- Membership is preserved from `pyStrip l` into `l`. -/
theorem mem_of_mem_pyStrip (c : Char) (l : List Char) (h : c ∈ pyStrip l) : c ∈ l := by
  unfold pyStrip dropLead at h
  exact mem_of_mem_dropTrail c l (List.dropWhile_sublist isPySpace |>.mem h)

/-- A successful prefix test puts every needle character in the hay. -/
theorem mem_of_startsWith : ∀ (l nd : List Char), startsWith l nd = true →
    ∀ c ∈ nd, c ∈ l := by
  intro l
  induction l with
  | nil =>
    intro nd h c hc
    cases nd with
    | nil => cases hc
    | cons n ns => simp [startsWith] at h
  | cons x t ih =>
    intro nd h c hc
    cases nd with
    | nil => cases hc
    | cons n ns =>
      rw [startsWith, Bool.and_eq_true] at h
      rcases List.mem_cons.mp hc with hc | hc
      · have : x = n := by simpa using h.1
        simp [hc, this]
      · exact List.mem_cons_of_mem x (ih ns h.2 c hc)

/-- Fact: `pyReplaceF` is the identity when some needle character is missing
from the hay. -/
theorem pyReplaceF_eq_self (nd rep : List Char) (c0 : Char) (hc0 : c0 ∈ nd) :
    ∀ (f : Nat) (l : List Char), c0 ∉ l → pyReplaceF nd rep f l = l := by
  intro f
  induction f with
  | zero => intro l _; rfl
  | succ f ih =>
    intro l hl
    cases l with
    | nil => rfl
    | cons x t =>
      rw [pyReplaceF]
      have hsw : startsWith (x :: t) nd = false := by
        cases h : startsWith (x :: t) nd
        · rfl
        · exact absurd (mem_of_startsWith (x :: t) nd h c0 hc0) hl
      rw [hsw]
      simp only [if_neg Bool.false_ne_true]
      rw [ih t (fun h => hl (List.mem_cons_of_mem x h))]

/-- Fact: `pyReplace` is the identity when some needle character is missing
from the hay. -/
theorem pyReplace_eq_self (l nd rep : List Char) (c0 : Char) (hc0 : c0 ∈ nd)
    (hl : c0 ∉ l) : pyReplace l nd rep = l := by
  unfold pyReplace
  have : nd.isEmpty = false := by
    cases nd with
    | nil => cases hc0
    | cons a b => rfl
  rw [this]
  simp only [if_neg Bool.false_ne_true]
  exact pyReplaceF_eq_self nd rep c0 hc0 l.length l hl

/-- Fact: `dropLead` is idempotent. -/
theorem dropLead_idem : ∀ l : List Char, dropLead (dropLead l) = dropLead l := by
  intro l
  induction l with
  | nil => rfl
  | cons c t ih =>
    rw [dropLead_cons]
    by_cases hc : isPySpace c = true
    · rw [if_pos hc]; exact ih
    · rw [if_neg hc, dropLead_cons, if_neg hc]

/-- Fact: `dropTrail` is idempotent. -/
theorem dropTrail_idem : ∀ l : List Char, dropTrail (dropTrail l) = dropTrail l := by
  intro l
  induction l with
  | nil => rfl
  | cons c t ih =>
    cases hl : dropTrail t with
    | nil =>
      rw [dropTrail_cons_nil c t hl]
      split
      · rfl
      · rename_i h
        rw [show dropTrail [c] = if isPySpace c = true then [] else [c] from rfl, if_neg h]
    | cons a b =>
      rw [dropTrail_cons_cons c t a b hl]
      rw [hl] at ih
      exact dropTrail_cons_cons c (a :: b) a b ih

/-- Fact: `dropLead` and `dropTrail` commute. -/
theorem dropLead_dropTrail_comm : ∀ l : List Char,
    dropTrail (dropLead l) = dropLead (dropTrail l) := by
  intro l
  induction l with
  | nil => rfl
  | cons c t ih =>
    by_cases hc : isPySpace c = true
    · rw [dropLead_cons, if_pos hc, ih]
      cases hl : dropTrail t with
      | nil => rw [dropTrail_cons_nil c t hl, if_pos hc]
      | cons a b =>
        rw [dropTrail_cons_cons c t a b hl, dropLead_cons c (a :: b), if_pos hc]
    · rw [dropLead_cons, if_neg hc]
      cases hl : dropTrail t with
      | nil =>
        rw [dropTrail_cons_nil c t hl, if_neg hc, dropLead_cons, if_neg hc]
      | cons a b =>
        rw [dropTrail_cons_cons c t a b hl, dropLead_cons c (a :: b), if_neg hc]

/-- Fact: `pyStrip` is idempotent. -/
theorem pyStrip_idem (l : List Char) : pyStrip (pyStrip l) = pyStrip l := by
  unfold pyStrip
  rw [dropLead_dropTrail_comm (dropTrail l), dropTrail_idem, dropLead_idem]

/-- Splitting a newline-free string gives a single line. -/
theorem pySplitNl_no_nl : ∀ a : List Char, '\n' ∉ a → pySplitNl a = [a] := by
  intro a
  induction a with
  | nil => intro _; rfl
  | cons c t ih =>
    intro h
    have hc : ¬ c == '\n' := by
      simp only [List.mem_cons, not_or] at h
      simpa using fun he => h.1 he.symm
    rw [pySplitNl, if_neg hc,
      ih (fun hm => h (List.mem_cons_of_mem c hm))]

/-- Splitting after a newline-free prefix. -/
theorem pySplitNl_append : ∀ (a b : List Char), '\n' ∉ a →
    pySplitNl (a ++ '\n' :: b) = a :: pySplitNl b := by
  intro a
  induction a with
  | nil =>
    intro b _
    rw [show ([] : List Char) ++ '\n' :: b = '\n' :: b from rfl, pySplitNl]
    simp
  | cons c t ih =>
    intro b h
    have hc : ¬ c == '\n' := by
      simp only [List.mem_cons, not_or] at h
      simpa using fun he => h.1 he.symm
    rw [show (c :: t) ++ '\n' :: b = c :: (t ++ '\n' :: b) from rfl, pySplitNl, if_neg hc,
      ih b (fun hm => h (List.mem_cons_of_mem c hm))]

/-- Digit characters are decimal digits. -/
theorem isDigit_of_mem_digitChars (d : Char) (h : d ∈ digitChars) : d.isDigit = true := by
  simp only [digitChars, show "0123456789".data =
    ['0', '1', '2', '3', '4', '5', '6', '7', '8', '9'] from rfl, List.mem_cons] at h
  rcases h with h | h | h | h | h | h | h | h | h | h | h <;> first
    | (subst h; decide)
    | cases h

/-- Digit characters are not whitespace. -/
theorem not_space_of_mem_digitChars (d : Char) (h : d ∈ digitChars) :
    isPySpace d = false := by
  simp only [digitChars, show "0123456789".data =
    ['0', '1', '2', '3', '4', '5', '6', '7', '8', '9'] from rfl, List.mem_cons] at h
  rcases h with h | h | h | h | h | h | h | h | h | h | h <;> first
    | (subst h; decide)
    | cases h

/-- Digit characters are not newlines, brackets or question marks. -/
theorem digit_ne (d : Char) (h : d ∈ digitChars) :
    d ≠ '\n' ∧ d ≠ '[' := by
  simp only [digitChars, show "0123456789".data =
    ['0', '1', '2', '3', '4', '5', '6', '7', '8', '9'] from rfl, List.mem_cons] at h
  rcases h with h | h | h | h | h | h | h | h | h | h | h <;> first
    | (subst h; exact ⟨by decide, by decide⟩)
    | cases h

/-- Digit characters are in the `lstrip("0123456789.")` set. -/
theorem numDot_contains_digit (d : Char) (h : d ∈ digitChars) :
    numDotChars.contains d = true := by
  simp only [digitChars, show "0123456789".data =
    ['0', '1', '2', '3', '4', '5', '6', '7', '8', '9'] from rfl, List.mem_cons] at h
  rcases h with h | h | h | h | h | h | h | h | h | h | h <;> first
    | (subst h; decide)
    | cases h

/-- A well-formed item line (`"d. text"`) is strip-fixed. -/
theorem pyStrip_item_line (d : Char) (t : List Char) (hd : d ∈ digitChars)
    (ht : pyStrip t = t) (hne : t ≠ []) :
    pyStrip (d :: '.' :: ' ' :: t) = d :: '.' :: ' ' :: t := by
  have hdt := dropTrail_eq_self_of_strip t ht
  have h1 : dropTrail t ≠ [] := by rw [hdt]; exact hne
  have h2 : dropTrail (' ' :: t) = ' ' :: t := by
    rw [dropTrail_cons_of_ne ' ' t h1, hdt]
  have h3 : dropTrail ('.' :: ' ' :: t) = '.' :: ' ' :: t := by
    rw [dropTrail_cons_of_ne '.' (' ' :: t) (by rw [h2]; simp), h2]
  have h4 : dropTrail (d :: '.' :: ' ' :: t) = d :: '.' :: ' ' :: t := by
    rw [dropTrail_cons_of_ne d ('.' :: ' ' :: t) (by rw [h3]; simp), h3]
  unfold pyStrip
  rw [h4, dropLead_cons, if_neg (by rw [not_space_of_mem_digitChars d hd]; simp)]

/-- A well-formed item line contains no newline. -/
theorem item_line_no_nl (d : Char) (t : List Char) (hd : d ∈ digitChars)
    (ht : '\n' ∉ t) : '\n' ∉ (d :: '.' :: ' ' :: t) := by
  intro h
  rcases List.mem_cons.mp h with h | h
  · exact (digit_ne d hd).1 h.symm
  · rcases List.mem_cons.mp h with h | h
    · cases h
    · rcases List.mem_cons.mp h with h | h
      · cases h
      · exact ht h

/-- A well-formed item line contains no opening bracket. -/
theorem item_line_no_lb (d : Char) (t : List Char) (hd : d ∈ digitChars)
    (ht : '[' ∉ t) : '[' ∉ (d :: '.' :: ' ' :: t) := by
  intro h
  rcases List.mem_cons.mp h with h | h
  · exact (digit_ne d hd).2 h.symm
  · rcases List.mem_cons.mp h with h | h
    · cases h
    · rcases List.mem_cons.mp h with h | h
      · cases h
      · exact ht h

/-- A nonempty item list renders to a nonempty block. -/
theorem itemsBlock_ne_nil : ∀ items : List (Char × List Char), items ≠ [] →
    itemsBlock items ≠ [] := by
  intro items h
  cases items with
  | nil => exact absurd rfl h
  | cons p rest =>
    cases rest with
    | nil => rcases p with ⟨d, t⟩; simp [itemsBlock]
    | cons q rest' => rcases p with ⟨d, t⟩; simp [itemsBlock]

/-- The rendered block of well-formed items contains no opening
bracket. -/
theorem itemsBlock_no_lb : ∀ items : List (Char × List Char),
    (∀ p ∈ items, p.1 ∈ digitChars ∧ '[' ∉ p.2) → '[' ∉ itemsBlock items := by
  intro items
  induction items with
  | nil => intro _ h; cases h
  | cons p rest ih =>
    rcases p with ⟨d, t⟩
    intro hwf
    have hp := hwf (d, t) (by simp)
    cases rest with
    | nil =>
      rw [show itemsBlock [(d, t)] = d :: '.' :: ' ' :: t from rfl]
      exact item_line_no_lb d t hp.1 hp.2
    | cons q rest' =>
      rw [show itemsBlock ((d, t) :: q :: rest')
          = (d :: '.' :: ' ' :: t) ++ '\n' :: itemsBlock (q :: rest') from rfl]
      intro h
      rcases List.mem_append.mp h with h | h
      · exact item_line_no_lb d t hp.1 hp.2 h
      · rcases List.mem_cons.mp h with h | h
        · cases h
        · exact ih (fun p hp' => hwf p (List.mem_cons_of_mem _ hp')) h

/-- The rendered block of well-formed items is strip-fixed. -/
theorem pyStrip_itemsBlock : ∀ items : List (Char × List Char),
    (∀ p ∈ items, p.1 ∈ digitChars ∧ p.2 ≠ [] ∧ pyStrip p.2 = p.2) →
    pyStrip (itemsBlock items) = itemsBlock items := by
  intro items
  induction items with
  | nil => intro _; rfl
  | cons p rest ih =>
    rcases p with ⟨d, t⟩
    intro hwf
    have hp := hwf (d, t) (by simp)
    cases rest with
    | nil =>
      rw [show itemsBlock [(d, t)] = d :: '.' :: ' ' :: t from rfl]
      exact pyStrip_item_line d t hp.1 hp.2.2 hp.2.1
    | cons q rest' =>
      rw [show itemsBlock ((d, t) :: q :: rest')
          = (d :: '.' :: ' ' :: t) ++ '\n' :: itemsBlock (q :: rest') from rfl]
      have hrest := ih (fun p hp' => hwf p (List.mem_cons_of_mem _ hp'))
      have hbne : itemsBlock (q :: rest') ≠ [] := itemsBlock_ne_nil _ (by simp)
      have hdt : dropTrail ('\n' :: itemsBlock (q :: rest'))
          = '\n' :: itemsBlock (q :: rest') := by
        rw [dropTrail_cons_of_ne '\n' _ (by
          rw [dropTrail_eq_self_of_strip _ hrest]; exact hbne)]
        rw [dropTrail_eq_self_of_strip _ hrest]
      unfold pyStrip
      rw [dropTrail_append_of_ne _ (by rw [hdt]; simp), hdt]
      rw [show (d :: '.' :: ' ' :: t) ++ '\n' :: itemsBlock (q :: rest')
          = d :: ('.' :: ' ' :: t ++ '\n' :: itemsBlock (q :: rest')) from rfl]
      rw [dropLead_cons, if_neg (by rw [not_space_of_mem_digitChars d hp.1]; simp)]

/-- Splitting the rendered block recovers the item lines. -/
theorem pySplitNl_itemsBlock : ∀ items : List (Char × List Char), items ≠ [] →
    (∀ p ∈ items, p.1 ∈ digitChars ∧ '\n' ∉ p.2) →
    pySplitNl (itemsBlock items) = items.map (fun p => p.1 :: '.' :: ' ' :: p.2) := by
  intro items
  induction items with
  | nil => intro h _; exact absurd rfl h
  | cons p rest ih =>
    rcases p with ⟨d, t⟩
    intro _ hwf
    have hp := hwf (d, t) (by simp)
    cases rest with
    | nil =>
      rw [show itemsBlock [(d, t)] = d :: '.' :: ' ' :: t from rfl,
        pySplitNl_no_nl _ (item_line_no_nl d t hp.1 hp.2)]
      rfl
    | cons q rest' =>
      rw [show itemsBlock ((d, t) :: q :: rest')
          = (d :: '.' :: ' ' :: t) ++ '\n' :: itemsBlock (q :: rest') from rfl,
        pySplitNl_append _ _ (item_line_no_nl d t hp.1 hp.2),
        ih (by simp) (fun p hp' => hwf p (List.mem_cons_of_mem _ hp'))]
      rfl

/-- The `[CHOICES]`-section line loop maps well-formed item lines to
their texts. -/
theorem parseChoiceLines_items : ∀ items : List (Char × List Char),
    (∀ p ∈ items, p.1 ∈ digitChars ∧ p.2 ≠ [] ∧ pyStrip p.2 = p.2) →
    parseChoiceLines (items.map (fun p => p.1 :: '.' :: ' ' :: p.2))
      = items.map (fun p => p.2) := by
  intro items
  induction items with
  | nil => intro _; rfl
  | cons p rest ih =>
    rcases p with ⟨d, t⟩
    intro hwf
    have hp := hwf (d, t) (by simp)
    rw [List.map_cons, parseChoiceLines,
      pyStrip_item_line d t hp.1 hp.2.2 hp.2.1]
    dsimp only
    rw [show List.dropWhile (fun x => numDotChars.contains x) (d :: '.' :: ' ' :: t)
        = ' ' :: t by
      rw [List.dropWhile_cons, if_pos (numDot_contains_digit d hp.1),
        List.dropWhile_cons, if_pos (by decide),
        List.dropWhile_cons, if_neg (by decide)]]
    rw [isDigit_of_mem_digitChars d hp.1]
    rw [pyStrip_space_cons t hp.2.2 hp.2.1]
    cases ht : t with
    | nil => exact absurd ht hp.2.1
    | cons x xs =>
      rw [ih (fun p hp' => hwf p (List.mem_cons_of_mem _ hp'))]
      rfl

/-- A definite mismatch within the prefix refutes the prefix test for
any continuation. -/
theorem startsWith_false_of_definiteMismatch : ∀ (p nd rest : List Char),
    definiteMismatch p nd = true → startsWith (p ++ rest) nd = false := by
  intro p
  induction p with
  | nil =>
    intro nd rest h
    cases nd <;> simp [definiteMismatch] at h
  | cons c t ih =>
    intro nd rest h
    cases nd with
    | nil => simp [definiteMismatch] at h
    | cons n ns =>
      rw [show (c :: t) ++ rest = c :: (t ++ rest) from rfl, startsWith]
      by_cases hcn : (c == n) = true
      · rw [definiteMismatch, if_pos hcn] at h
        rw [ih ns rest h, Bool.and_false]
      · rw [show (c == n) = false by revert hcn; cases (c == n) <;> simp, Bool.false_and]

/-- The tail of a definitely-mismatching block is one too. -/
theorem blockFreeB_tail (c : Char) (t nd : List Char)
    (h : blockFreeB (c :: t) nd = true) : blockFreeB t nd = true := by
  unfold blockFreeB at *
  rw [List.all_eq_true] at *
  intro i hi
  have hi' : i + 1 ∈ List.range (c :: t).length := by
    simp only [List.mem_range, List.length_cons]
    simp only [List.mem_range] at hi
    omega
  have := h (i + 1) hi'
  simpa using this

/-- Fact: `find` skips a block that definitely mismatches the needle at every
position. -/
theorem pyFind_skip_block : ∀ (p rest nd : List Char), blockFreeB p nd = true →
    pyFind (p ++ rest) nd = (pyFind rest nd).map (· + p.length) := by
  intro p
  induction p with
  | nil =>
    intro rest nd _
    cases h : pyFind rest nd <;> simp [h]
  | cons c t ih =>
    intro rest nd hbf
    have h0 : definiteMismatch (c :: t) nd = true := by
      have := (List.all_eq_true.mp hbf) 0 (by simp)
      simpa using this
    have hsw : startsWith (c :: (t ++ rest)) nd = false := by
      rw [← List.cons_append]
      exact startsWith_false_of_definiteMismatch (c :: t) nd rest h0
    rw [show (c :: t) ++ rest = c :: (t ++ rest) from rfl, pyFind_cons_not _ _ _ hsw,
      ih rest nd (blockFreeB_tail c t nd hbf)]
    cases h : pyFind rest nd <;> simp [h]
    omega

/-- Fact: `pyFind` of the opening chapter tag in a well-formed response. -/
theorem find_chapTag_wf (body : List Char) (items : List (Char × List Char)) :
    pyFind (mkWFResponse body items) chapTag = some 0 := by
  unfold mkWFResponse
  rw [show ("[CHAPTER]\n".data : List Char) = chapTag ++ ['\n'] from by decide]
  simp only [List.append_assoc]
  exact pyFind_here chapTag _ (by decide)

/-- Fact: `pyFind` of the closing chapter tag in a well-formed response. -/
theorem find_chapEnd_wf (body : List Char) (items : List (Char × List Char))
    (hb : ∀ c ∈ body, c ≠ '[') :
    pyFind (mkWFResponse body items) chapEnd = some (body.length + 11) := by
  unfold mkWFResponse
  simp only [List.append_assoc]
  show pyFind ("[CHAPTER]\n".data ++ (body ++ ("\n[/CHAPTER]\n\n[CHOICES]\n".data ++
      (itemsBlock items ++ "\n[/CHOICES]".data)))) chapEnd = some (body.length + 11)
  rw [pyFind_skip_block "[CHAPTER]\n".data _ chapEnd (by decide)]
  rw [show chapEnd = '[' :: "/CHAPTER]".data from by decide]
  rw [pyFind_append_free '[' "/CHAPTER]".data body _ hb]
  show Option.map (· + "[CHAPTER]\n".data.length) (Option.map (· + body.length)
      (pyFind (['\n'] ++ (('[' :: "/CHAPTER]".data) ++ ("\n\n[CHOICES]\n".data ++
        (itemsBlock items ++ "\n[/CHOICES]".data)))) ('[' :: "/CHAPTER]".data)))
      = some (body.length + 11)
  rw [pyFind_append_free '[' "/CHAPTER]".data ['\n'] _ (by decide)]
  rw [pyFind_here ('[' :: "/CHAPTER]".data) _ (by decide)]
  simp
  omega

/-- Fact: `pyFind` of the opening choices tag in a well-formed response. -/
theorem find_choTag_wf (body : List Char) (items : List (Char × List Char))
    (hb : ∀ c ∈ body, c ≠ '[') :
    pyFind (mkWFResponse body items) choTag = some (body.length + 23) := by
  unfold mkWFResponse
  simp only [List.append_assoc]
  show pyFind ("[CHAPTER]\n".data ++ (body ++ ("\n[/CHAPTER]\n\n[CHOICES]\n".data ++
      (itemsBlock items ++ "\n[/CHOICES]".data)))) choTag = some (body.length + 23)
  rw [pyFind_skip_block "[CHAPTER]\n".data _ choTag (by decide)]
  rw [show choTag = '[' :: "CHOICES]".data from by decide]
  rw [pyFind_append_free '[' "CHOICES]".data body _ hb]
  show Option.map (· + "[CHAPTER]\n".data.length) (Option.map (· + body.length)
      (pyFind ("\n[/CHAPTER]\n\n".data ++ (('[' :: "CHOICES]".data) ++
        ('\n' :: (itemsBlock items ++ "\n[/CHOICES]".data)))) ('[' :: "CHOICES]".data)))
      = some (body.length + 23)
  rw [pyFind_skip_block "\n[/CHAPTER]\n\n".data _ ('[' :: "CHOICES]".data) (by decide)]
  rw [pyFind_here ('[' :: "CHOICES]".data) _ (by decide)]
  simp
  omega

/-- Fact: `pyFind` of the closing choices tag in a well-formed response. -/
theorem find_choEnd_wf (body : List Char) (items : List (Char × List Char))
    (hb : ∀ c ∈ body, c ≠ '[') (hib : ∀ c ∈ itemsBlock items, c ≠ '[') :
    pyFind (mkWFResponse body items) choEnd
      = some (body.length + (itemsBlock items).length + 34) := by
  unfold mkWFResponse
  simp only [List.append_assoc]
  show pyFind ("[CHAPTER]\n".data ++ (body ++ ("\n[/CHAPTER]\n\n[CHOICES]\n".data ++
      (itemsBlock items ++ "\n[/CHOICES]".data)))) choEnd
      = some (body.length + (itemsBlock items).length + 34)
  rw [pyFind_skip_block "[CHAPTER]\n".data _ choEnd (by decide)]
  rw [show choEnd = '[' :: "/CHOICES]".data from by decide]
  rw [pyFind_append_free '[' "/CHOICES]".data body _ hb]
  rw [pyFind_skip_block "\n[/CHAPTER]\n\n[CHOICES]\n".data _ ('[' :: "/CHOICES]".data)
    (by decide)]
  rw [pyFind_append_free '[' "/CHOICES]".data (itemsBlock items) _ hib]
  rw [show ("\n[/CHOICES]".data : List Char)
      = ['\n'] ++ (('[' :: "/CHOICES]".data) ++ []) from by decide]
  rw [pyFind_append_free '[' "/CHOICES]".data ['\n'] _ (by decide)]
  rw [pyFind_here ('[' :: "/CHOICES]".data) _ (by decide)]
  simp
  omega

/-- Taking past a left block takes from the right block. -/
theorem take_append_len {α : Type} : ∀ (A B : List α) (n : Nat),
    (A ++ B).take (A.length + n) = A ++ B.take n := by
  intro A
  induction A with
  | nil => intro B n; simp
  | cons a A ih =>
    intro B n
    rw [show (a :: A) ++ B = a :: (A ++ B) from rfl,
      show (a :: A).length + n = (A.length + n) + 1 by simp; omega,
      List.take_succ_cons, ih]
    rfl

/-- Slicing out the middle block of a three-part concatenation. -/
theorem pySlice_append (A B C : List Char) :
    pySlice (A ++ B ++ C) A.length (A.length + B.length) = B := by
  unfold pySlice
  rw [List.append_assoc, take_append_len A (B ++ C) B.length]
  rw [List.take_left B C]
  exact List.drop_left A B

/-- The chapter-content slice of a well-formed response. -/
theorem content_slice_wf (body : List Char) (items : List (Char × List Char)) :
    pySlice (mkWFResponse body items) 9 (body.length + 11)
      = '\n' :: (body ++ ['\n']) := by
  have hm : mkWFResponse body items
      = chapTag ++ ('\n' :: (body ++ ['\n'])) ++
        ("[/CHAPTER]\n\n[CHOICES]\n".data ++ (itemsBlock items ++ "\n[/CHOICES]".data)) := by
    unfold mkWFResponse
    simp only [List.append_assoc, List.cons_append]
    rfl
  have h := pySlice_append chapTag ('\n' :: (body ++ ['\n']))
    ("[/CHAPTER]\n\n[CHOICES]\n".data ++ (itemsBlock items ++ "\n[/CHOICES]".data))
  rw [show chapTag.length = 9 from rfl] at h
  rw [show (('\n' : Char) :: (body ++ ['\n'])).length = body.length + 2 by simp] at h
  rw [show (9 : Nat) + (body.length + 2) = body.length + 11 by omega] at h
  rw [hm, h]

/-- The choices-section slice of a well-formed response. -/
theorem choices_slice_wf (body : List Char) (items : List (Char × List Char)) :
    pySlice (mkWFResponse body items) (body.length + 32)
        (body.length + (itemsBlock items).length + 34)
      = '\n' :: (itemsBlock items ++ ['\n']) := by
  have hm : mkWFResponse body items
      = ("[CHAPTER]\n".data ++ body ++ "\n[/CHAPTER]\n\n[CHOICES]".data) ++
        ('\n' :: (itemsBlock items ++ ['\n'])) ++ "[/CHOICES]".data := by
    unfold mkWFResponse
    simp only [List.append_assoc, List.cons_append]
    rfl
  have h := pySlice_append ("[CHAPTER]\n".data ++ body ++ "\n[/CHAPTER]\n\n[CHOICES]".data)
    ('\n' :: (itemsBlock items ++ ['\n'])) "[/CHOICES]".data
  rw [show ("[CHAPTER]\n".data ++ body ++ "\n[/CHAPTER]\n\n[CHOICES]".data).length
      = body.length + 32 by simp [List.length_append]] at h
  rw [show (('\n' : Char) :: (itemsBlock items ++ ['\n'])).length
      = (itemsBlock items).length + 2 by simp] at h
  rw [show body.length + 32 + ((itemsBlock items).length + 2)
      = body.length + (itemsBlock items).length + 34 by omega] at h
  rw [hm, h]

set_option maxHeartbeats 3200000 in
/-- Claim C6, amended: for a well-formed response — content enclosed in
chapter delimiters (with a nonempty trimmed body free of delimiter
brackets and of the `?` that every filler phrase contains) followed by
an explicit `[CHOICES]` section of at most 3 items numbered `"d. "` —
`parse_response` returns exactly the enclosed substring (trimmed) as
content and exactly the items' texts, in source order, with the
`"N."`-style numbering stripped.  (The amendment: for `"N)"`-style
numbering the closing parenthesis is kept, see the counterexample; the
claim holds as stated for dot numbering.) -/
theorem parse_response_round_trip (body : List Char) (items : List (Char × List Char))
    (hb : '[' ∉ body) (hq : '?' ∉ body) (hS : pyStrip body ≠ [])
    (hitems : ∀ p ∈ items, p.1 ∈ digitChars ∧ p.2 ≠ [] ∧ '\n' ∉ p.2 ∧ '[' ∉ p.2 ∧
      pyStrip p.2 = p.2)
    (hne : items ≠ []) (hlen : items.length ≤ 3) :
    parse_response (mkWFResponse body items)
      = ⟨pyStrip body, items.map (fun p => p.2)⟩ := by
  have hb' : ∀ c ∈ body, c ≠ '[' := fun c hc he => hb (he ▸ hc)
  have hib' : ∀ c ∈ itemsBlock items, c ≠ '[' := by
    have h := itemsBlock_no_lb items (fun p hp => ⟨(hitems p hp).1, (hitems p hp).2.2.2.1⟩)
    exact fun c hc he => h (he ▸ hc)
  have hfT := find_chapTag_wf body items
  have hfE := find_chapEnd_wf body items hb'
  have hfC := find_choTag_wf body items hb'
  have hfD := find_choEnd_wf body items hb' hib'
  have hslc := content_slice_wf body items
  have hsch := choices_slice_wf body items
  have hcontent : pyStrip ('\n' :: (body ++ ['\n'])) = pyStrip body := by
    rw [pyStrip_cons_ws '\n' (by decide), pyStrip_append_ws '\n' (by decide)]
  have hIBstrip : pyStrip (itemsBlock items) = itemsBlock items :=
    pyStrip_itemsBlock items
      (fun p hp => ⟨(hitems p hp).1, (hitems p hp).2.1, (hitems p hp).2.2.2.2⟩)
  have hchtext : pyStrip ('\n' :: (itemsBlock items ++ ['\n'])) = itemsBlock items := by
    rw [pyStrip_cons_ws '\n' (by decide), pyStrip_append_ws '\n' (by decide), hIBstrip]
  have hsplit := pySplitNl_itemsBlock items hne
    (fun p hp => ⟨(hitems p hp).1, (hitems p hp).2.2.1⟩)
  have hparse := parseChoiceLines_items items
    (fun p hp => ⟨(hitems p hp).1, (hitems p hp).2.1, (hitems p hp).2.2.2.2⟩)
  have hSlb : '[' ∉ pyStrip body := fun h => hb (mem_of_mem_pyStrip _ _ h)
  have hSq : '?' ∉ pyStrip body := fun h => hq (mem_of_mem_pyStrip _ _ h)
  have hSS : pyStrip (pyStrip body) = pyStrip body := pyStrip_idem body
  have hrep1 : pyReplace (pyStrip body) chapTag [] = pyStrip body :=
    pyReplace_eq_self _ _ _ '[' (by decide) hSlb
  have hrep2 : pyReplace (pyStrip body) chapEnd [] = pyStrip body :=
    pyReplace_eq_self _ _ _ '[' (by decide) hSlb
  have hrep3 : pyReplace (pyStrip body) choTag [] = pyStrip body :=
    pyReplace_eq_self _ _ _ '[' (by decide) hSlb
  have hrep4 : pyReplace (pyStrip body) choEnd [] = pyStrip body :=
    pyReplace_eq_self _ _ _ '[' (by decide) hSlb
  have hfil1 : pyReplace (pyStrip body) "Как вы хотели бы продолжить историю?".data []
      = pyStrip body := pyReplace_eq_self _ _ _ '?' (by decide) hSq
  have hfil2 : pyReplace (pyStrip body) "How would you like to continue the story?".data []
      = pyStrip body := pyReplace_eq_self _ _ _ '?' (by decide) hSq
  have hfil3 : pyReplace (pyStrip body) "What happens next?".data []
      = pyStrip body := pyReplace_eq_self _ _ _ '?' (by decide) hSq
  have hfil4 : pyReplace (pyStrip body) "Что будет дальше?".data []
      = pyStrip body := pyReplace_eq_self _ _ _ '?' (by decide) hSq
  have hSe : (pyStrip body).isEmpty = false := by
    cases h : pyStrip body with
    | nil => exact absurd h hS
    | cons a b => rfl
  have hche : (items.map (fun p => p.2)).isEmpty = false := by
    cases items with
    | nil => exact absurd rfl hne
    | cons p rest => rfl
  have hlen1 : chapTag.length = 9 := rfl
  have hlen2 : choTag.length = 9 := rfl
  simp only [parse_response, pyContains, hfT, hfE, hfC, hfD, Option.isSome_some,
    Bool.and_self, if_true, Option.getD_some, hlen1, hlen2, Nat.zero_add]
  rw [hslc]
  rw [hsch]
  rw [hcontent, hchtext, hsplit, hparse]
  simp only [hSe, Bool.false_eq_true, if_false]
  simp only [hrep1, hrep2, hrep3, hrep4, hSS]
  simp only [fillerPhrases, List.foldl_cons, List.foldl_nil, hfil1, hfil2, hfil3, hfil4, hSS]
  simp only [hche, Bool.false_and, Bool.false_eq_true, if_false]
  rw [List.take_of_length_le (by rw [List.length_map]; exact hlen)]

/-- Claim C6, amended, witness. -/
theorem parse_response_round_trip_witness :
    parse_response (mkWFResponse "The hero went north.".data
        [('1', "Go left".data), ('2', "Go right".data)])
      = ⟨"The hero went north.".data, ["Go left".data, "Go right".data]⟩ := by
  have h := parse_response_round_trip "The hero went north.".data
    [('1', "Go left".data), ('2', "Go right".data)]
    (by decide) (by decide) (by decide) (by decide) (by decide) (by decide)
  rw [h]
  decide
